import Mathlib

/-!
Verification development for the InfluxDB v2 output HTTP client
(plugins/outputs/influxdb_v2/http.go).

The Go source is shallowly embedded: pure helpers (URL construction, the
backoff computation, response classification) become Lean functions, and the
stateful client (`httpClient` with its `retryTime`, `retryCount` and
`createBucketExecuted` fields) becomes explicit state passing.  Network I/O is
modelled by response oracles: each HTTP round trip consumes a caller-supplied
response value, and the requests actually issued are recorded in an event
trace.  Timestamps and the seconds-valued backoff arithmetic are modelled with
rationals (Go computes the backoff in float64; for the quantities reachable
here — small integers squared, divided by 40, capped at 60 — the float and
rational computations truncate to the same whole number of seconds).
-/

namespace InfluxV2

/-! ## URL construction (makeWriteURL / makeCreateURL / makeOrgIDURL)

Embeds net/url and path pieces used by http.go: `path.Clean`, `path.Join`,
`url.QueryEscape`, `url.Values.Encode`, and the parts of `url.URL.String`
exercised by this client (scheme://host + escaped path + raw query; no user
info, fragment or opaque part is ever produced by this code). -/

/-- A parsed URL, restricted to the components this client manipulates. -/
structure URL where
  scheme : String
  host : String
  path : String
  rawQuery : String
deriving Repr, DecidableEq

/-- Split a character list on the separator character, as the lexical
cleaning of Go path.Clean sees segments.  Splitting the empty list gives one
empty segment, matching the usual split semantics. -/
def splitSlash : List Char → List (List Char)
  | [] => [[]]
  | c :: rest =>
    if c = '/' then [] :: splitSlash rest
    else
      match splitSlash rest with
      | s :: ss => (c :: s) :: ss
      | [] => [[c]]

/-- One step of Go path.Clean segment processing.  The accumulator holds the
kept segments in reverse.  Empty and dot segments are dropped; a dot-dot
segment pops the previous kept segment when possible, is dropped at the root
of a rooted path, and is kept for an unrooted path that cannot pop. -/
def cleanStep (rooted : Bool) (acc : List (List Char)) (seg : List Char) : List (List Char) :=
  if seg = [] ∨ seg = ['.'] then acc
  else if seg = ['.', '.'] then
    match acc with
    | t :: rest => if t = ['.', '.'] then seg :: acc else rest
    | [] => if rooted then [] else [seg]
  else seg :: acc

/-- Join segments with a slash separator (inverse of splitSlash on clean
segment lists). -/
def joinSlash : List (List Char) → List Char
  | [] => []
  | [s] => s
  | s :: ss => s ++ '/' :: joinSlash ss

/-- Go path.Clean: lexical cleaning of a slash-separated path.  An empty path
cleans to a dot; the result of cleaning a rooted path is rooted; an empty
result becomes a dot (or a lone slash when rooted). -/
def pathClean (s : String) : String :=
  if s = "" then "." else
  let l := s.data
  let rooted := l.head? = some '/'
  let kept := ((splitSlash l).foldl (cleanStep rooted) []).reverse
  let out := (if rooted then ['/'] else []) ++ joinSlash kept
  if out = [] then "." else ⟨out⟩

/-- Go path.Join specialised to two elements, as called by the URL builders:
concatenate with a slash separator (skipping empty elements) and Clean, with
an all-empty argument list producing the empty string. -/
def pathJoin (a b : String) : String :=
  if a = "" ∧ b = "" then ""
  else if a = "" then pathClean b
  else if b = "" then pathClean a
  else pathClean (a ++ "/" ++ b)

/-- Characters Go url.shouldEscape leaves unescaped in every mode:
alphanumerics and the RFC 3986 unreserved marks. -/
def isUnreserved (c : Char) : Bool :=
  ('a' ≤ c ∧ c ≤ 'z') ∨ ('A' ≤ c ∧ c ≤ 'Z') ∨ ('0' ≤ c ∧ c ≤ '9') ∨
  c = '-' ∨ c = '_' ∨ c = '.' ∨ c = '~'

/-- Uppercase hex digit of a value below 16, as Go url escaping emits. -/
def hexDigit (n : Nat) : Char :=
  if n < 10 then Char.ofNat ('0'.toNat + n)
  else Char.ofNat ('A'.toNat + (n - 10))

/-- Percent-escape one character.  Modelled at character level: ASCII
characters escape to one %XX triple exactly as Go does byte-wise; the UTF-8
multi-byte expansion of non-ASCII characters is not spelled out (no claim
exercises non-ASCII input). -/
def percentEscapeChar (c : Char) : List Char :=
  ['%', hexDigit (c.toNat / 16 % 16), hexDigit (c.toNat % 16)]

/-- Go url.QueryEscape: unreserved characters pass through, space becomes a
plus, everything else is percent-escaped. -/
def queryEscape (s : String) : String :=
  ⟨s.data.flatMap (fun c =>
    if isUnreserved c then [c]
    else if c = ' ' then ['+']
    else percentEscapeChar c)⟩

/-- Go url.shouldEscape in encodePath mode: beyond the unreserved set, the
sub-delims and path-allowed characters pass through, except the question
mark. -/
def pathCharAllowed (c : Char) : Bool :=
  isUnreserved c ∨ c = '$' ∨ c = '&' ∨ c = '+' ∨ c = ',' ∨ c = '/' ∨
  c = ':' ∨ c = ';' ∨ c = '=' ∨ c = '@'

/-- Escaping of the path component as performed inside url.URL.String. -/
def pathEscape (s : String) : String :=
  ⟨s.data.flatMap (fun c => if pathCharAllowed c then [c] else percentEscapeChar c)⟩

/-- Insert a key/values group into a list sorted by key (Go sorts the map
keys of url.Values before encoding). -/
def insertByKey (p : String × List String) :
    List (String × List String) → List (String × List String)
  | [] => [p]
  | q :: qs => if p.1 ≤ q.1 then p :: q :: qs else q :: insertByKey p qs

/-- Sort a values list by key (insertion sort; keys here are distinct so
stability is irrelevant). -/
def sortByKey : List (String × List String) → List (String × List String)
  | [] => []
  | p :: ps => insertByKey p (sortByKey ps)

/-- Go url.Values.Encode: keys sorted, each key/value pair emitted as
key=value with both sides query-escaped, pairs joined by ampersands. -/
def valuesEncode (vs : List (String × List String)) : String :=
  String.intercalate "&"
    ((sortByKey vs).flatMap (fun p =>
      p.2.map (fun v => queryEscape p.1 ++ "=" ++ queryEscape v)))

/-- The part of url.URL.String exercised here: scheme://host, the escaped
path, and the raw query after a question mark when non-empty. -/
def urlString (u : URL) : String :=
  u.scheme ++ "://" ++ u.host ++ pathEscape u.path ++
    (if u.rawQuery = "" then "" else "?" ++ u.rawQuery)

/-- makeWriteURL (http.go:550-567): the switch on the scheme, mutating a copy
of the base URL.  This returns the mutated URL value; makeWriteURL then
renders it with urlString, mirroring loc.String(). -/
def makeWriteURLParts (loc : URL) (org bucket : String) : Except String URL :=
  let params := valuesEncode [("bucket", [bucket]), ("org", [org])]
  match loc.scheme with
  | "unix" =>
    .ok { loc with scheme := "http", host := "127.0.0.1", path := "/api/v2/write",
                   rawQuery := params }
  | "http" =>
    .ok { loc with path := pathJoin loc.path "/api/v2/write", rawQuery := params }
  | "https" =>
    .ok { loc with path := pathJoin loc.path "/api/v2/write", rawQuery := params }
  | other => .error ("unsupported scheme: " ++ other)

/-- makeWriteURL: the URL string actually placed on the wire request. -/
def makeWriteURL (loc : URL) (org bucket : String) : Except String String :=
  (makeWriteURLParts loc org bucket).map urlString

/-- makeCreateURL (http.go:569-581): bucket-create endpoint, no query. -/
def makeCreateURL (loc : URL) : Except String String :=
  match loc.scheme with
  | "unix" =>
    .ok (urlString { loc with scheme := "http", host := "127.0.0.1",
                              path := "/api/v2/buckets", rawQuery := "" })
  | "http" =>
    .ok (urlString { loc with path := pathJoin loc.path "/api/v2/buckets", rawQuery := "" })
  | "https" =>
    .ok (urlString { loc with path := pathJoin loc.path "/api/v2/buckets", rawQuery := "" })
  | other => .error ("unsupported scheme: " ++ other)

/-- makeOrgIDURL (http.go:583-600): org-lookup endpoint with org and limit
query parameters. -/
def makeOrgIDURL (loc : URL) (orgName : String) : Except String String :=
  let params := valuesEncode [("org", [orgName]), ("limit", ["1"])]
  match loc.scheme with
  | "unix" =>
    .ok (urlString { loc with scheme := "http", host := "127.0.0.1",
                              path := "/api/v2/orgs", rawQuery := params })
  | "http" =>
    .ok (urlString { loc with path := pathJoin loc.path "/api/v2/orgs", rawQuery := params })
  | "https" =>
    .ok (urlString { loc with path := pathJoin loc.path "/api/v2/orgs", rawQuery := params })
  | other => .error ("unsupported scheme: " ++ other)

/-! ## Data model

Metrics, decoded response shapes, the response oracles that stand in for the
network, the client configuration and the mutable client state. -/

/-- A telegraf metric: measurement name, tags, fields, timestamp.  Fields are
opaque to this client (only serialized); tags are read for bucket routing and
possibly stripped. -/
structure Metric where
  measurement : String
  tags : List (String × String)
  fields : List (String × String)
  time : ℤ
deriving DecidableEq, Repr

instance : Inhabited Metric := ⟨⟨"", [], [], 0⟩⟩

/-- metric.GetTag: the value of the tag with the given key, when present. -/
def Metric.getTag (m : Metric) (key : String) : Option String :=
  m.tags.lookup key

/-- metric.RemoveTag: drop the tag with the given key. -/
def Metric.removeTag (m : Metric) (key : String) : Metric :=
  { m with tags := m.tags.filter (fun p => p.1 ≠ key) }

/-- A metric in flight inside Write: either a reference to one of the
caller's metric objects (an index into the input slice) or a fresh object
created by metric.Copy().  Distinguishing the two makes the target of a
mutation such as RemoveTag explicit in the embedding. -/
inductive Entry where
  | ref (i : ℕ)
  | copy (m : Metric)
deriving DecidableEq, Repr

/-- Read the metric value an entry denotes. -/
def resolveEntry (store : List Metric) : Entry → Metric
  | .ref i => store.getD i default
  | .copy m => m

/-- Apply RemoveTag through an entry: on a reference it mutates the caller's
object in the store, on a copy it only changes the fresh object. -/
def entryRemoveTag (store : List Metric) (e : Entry) (key : String) :
    List Metric × Entry :=
  match e with
  | .ref i => (store.set i ((store.getD i default).removeTag key), .ref i)
  | .copy m => (store, .copy (m.removeTag key))

/-- genericRespError (http.go:183-198): decoded error body shape. -/
structure GenericRespError where
  code : String
  message : String
  line : Option ℤ
  maxLength : Option ℤ
deriving DecidableEq, Repr

/-- genericRespError.Error(): code: message, with a line or maxlen suffix
when the corresponding optional field is set. -/
def GenericRespError.errString (g : GenericRespError) : String :=
  let e := g.code ++ ": " ++ g.message
  match g.line with
  | some l => e ++ " - line[" ++ toString l ++ "]"
  | none =>
    match g.maxLength with
    | some m => e ++ " - maxlen[" ++ toString m ++ "]"
    | none => e

/-- The Status text of a Go http.Response: the three-digit status code
followed by the reason phrase (Go rejects responses whose status line does
not start with the decimal code). -/
def statusLineOf (status : ℕ) (reason : String) : String :=
  Nat.repr status ++ " " ++ reason

/-- The check resp.Status[0] == '4' from http.go:335 (with its length
guard). -/
def is4xxLine (s : String) : Bool :=
  match s.data with
  | c :: _ => c = '4'
  | [] => false

/-- Whether pat occurs as a contiguous run inside s, checked at every
position. -/
def hasInfixAux (pat : List Char) : List Char → Bool
  | [] => pat.isPrefixOf []
  | c :: rest => pat.isPrefixOf (c :: rest) || hasInfixAux pat rest

/-- strings.Contains. -/
def containsSubstr (s pat : String) : Bool :=
  hasInfixAux pat.data s.data

/-- The bucket-not-found signature (http.go:48). -/
def errStringBucketNotFound : String := "not found: bucket"

/-- Response to a write request, as the classifier sees it.  transport is a
client.Do failure (connection refused, timeout, ...); body is the error body
decoded as genericRespError (none when decoding failed, which makes the
description fall back to the status line); retryAfter is the Retry-After
header, none when absent and some none when present but unparseable, with a
parsed value modelled as the rational number of seconds it denotes. -/
structure WriteResp where
  transport : Option String
  status : ℕ
  reason : String
  body : Option GenericRespError
  retryAfter : Option (Option ℚ)
  xInfluxError : String
deriving DecidableEq, Repr

/-- The description writeBatch builds at http.go:288-293: the decoded body
rendered by Error(), falling back to resp.Status on decode failure. -/
def descOf (r : WriteResp) : String :=
  match r.body with
  | some g => g.errString
  | none => statusLineOf r.status r.reason

/-- Response to the org-lookup request.  bodyValid models validateResponse
(body empty or well-formed JSON); orgs the decoded org ids.  Decode failure
of a valid-JSON body into the orgIDResponse shape is not modelled separately
(no claim depends on it). -/
structure OrgIDResp where
  transport : Option String
  status : ℕ
  reason : String
  bodyValid : Bool
  orgs : List String
deriving DecidableEq, Repr

/-- Response to the bucket-create POST. -/
structure CreateResp where
  transport : Option String
  status : ℕ
  reason : String
  body : Option GenericRespError
deriving DecidableEq, Repr

/-- The HTTP requests a call actually issues, in order, each paired with the
response the oracle supplied for it. -/
inductive Ev where
  | orgReq (org : String) (r : OrgIDResp)
  | createReq (bucket : String) (r : CreateResp)
  | writeReq (bucket : String) (ms : List Metric) (r : WriteResp)
deriving DecidableEq, Repr

/-- Errors Write can return (the error taxonomy of writeBatch plus the retry
gate).  gate is errors.New("retry time has not elapsed"); urlErr a
makeWriteURL failure; throttle carries the installed whole-second delay. -/
inductive WErr where
  | gate
  | urlErr (msg : String)
  | transport (msg : String)
  | unauthorized (title desc : String)
  | throttle (delay : ℤ)
  | bucketNotFound (status : ℕ) (title desc bucket : String)
  | api (status : ℕ) (title desc : String)
deriving DecidableEq, Repr

/-- Errors of the bucket-creation path (logged by Write, never returned). -/
inductive CErr where
  | urlErr (msg : String)
  | transport (msg : String)
  | api (status : ℕ) (title desc : String)
  | orgLookup (org : String)
deriving DecidableEq, Repr

/-- The relevant configuration fields of httpClient (immutable after
construction). -/
structure Cfg where
  url : URL
  organization : String
  bucket : String
  bucketTag : String
  excludeBucketTag : Bool
  skipBucketCreation : Bool
deriving DecidableEq, Repr

/-- The mutable client state: retryCount and retryTime (http.go:99-100) and
the createBucketExecuted set (http.go:96, a map used as a set of bucket
names). Timestamps are rationals in seconds. -/
structure ClientState where
  retryCount : ℕ
  retryTime : ℚ
  created : List String
deriving DecidableEq, Repr

/-- NewHTTPClient accepts exactly these schemes (http.go:138-156). -/
def schemeOK (cfg : Cfg) : Bool :=
  cfg.url.scheme = "unix" ∨ cfg.url.scheme = "http" ∨ cfg.url.scheme = "https"

/-! ## Backoff computation -/

/-- Go's conversion of a non-negative float64 number of seconds to a whole
number of seconds (time.Duration(retry) truncates toward zero; the values
reaching it here are non-negative, where truncation and floor agree). -/
def goTruncSec (q : ℚ) : ℤ := ⌊q⌋

/-- getRetryDuration (http.go:468-488): quadratic backoff retryCount²/40,
the Retry-After header value when larger (10 when present but unparseable,
0 when absent), capped at defaultMaxWait = 60, truncated to whole seconds by
the float-to-Duration conversion. -/
def getRetryDuration (retryCount : ℕ) (retryAfter : Option (Option ℚ)) : ℤ :=
  let backoff : ℚ := (retryCount : ℚ) ^ 2 / 40
  let retryAfterHeader : ℚ :=
    match retryAfter with
    | none => 0
    | some none => 10
    | some (some q) => q
  goTruncSec (min (max backoff retryAfterHeader) 60)

/-! ## writeBatch and the response classification -/

/-- writeBatch (http.go:249-351): build the write URL, issue the request
(recorded as an event; a transport failure is propagated), then classify the
status code: the accepted statuses reset retryCount and succeed; the
unrecoverable payload statuses drop silently; 401/403 are fatal; the overload
statuses bump retryCount, install the retry window and return a transient
error; a body matching the bucket-not-found signature raises
BucketNotFoundError; any other 4xx drops silently; everything else is an
APIError with the X-Influx-Error header appended when present.  Body
serialization and compression are I/O-free collaborators abstracted away. -/
def writeBatch (cfg : Cfg) (st : ClientState) (now : ℚ) (bucket : String)
    (ms : List Metric) (r : WriteResp) : ClientState × List Ev × Option WErr :=
  match makeWriteURL cfg.url cfg.organization bucket with
  | .error e => (st, [], some (.urlErr e))
  | .ok _loc =>
    match r.transport with
    | some msg => (st, [.writeReq bucket ms r], some (.transport msg))
    | none =>
      if r.status ∈ [204, 200, 201, 202, 206, 207, 208] then
        ({ st with retryCount := 0 }, [.writeReq bucket ms r], none)
      else if r.status ∈ [400, 413, 422, 406] then
        (st, [.writeReq bucket ms r], none)
      else if r.status = 401 ∨ r.status = 403 then
        (st, [.writeReq bucket ms r],
         some (.unauthorized (statusLineOf r.status r.reason) (descOf r)))
      else if r.status ∈ [429, 503, 502, 504] then
        ({ st with retryCount := st.retryCount + 1,
                   retryTime := now + ((getRetryDuration (st.retryCount + 1) r.retryAfter : ℤ) : ℚ) },
         [.writeReq bucket ms r],
         some (.throttle (getRetryDuration (st.retryCount + 1) r.retryAfter)))
      else if containsSubstr (descOf r) errStringBucketNotFound then
        (st, [.writeReq bucket ms r],
         some (.bucketNotFound r.status (statusLineOf r.status r.reason) (descOf r) bucket))
      else if is4xxLine (statusLineOf r.status r.reason) then
        (st, [.writeReq bucket ms r], none)
      else
        (st, [.writeReq bucket ms r],
         some (.api r.status (statusLineOf r.status r.reason)
           (if r.xInfluxError = "" then descOf r else descOf r ++ "; " ++ r.xInfluxError)))

/-- The spec's Response Classifier (section 4.2), as a pure function of the
response alone, used to state the Write contract. -/
inductive Outcome where
  | success
  | dropSilently
  | unauthorized
  | throttle
  | bucketNotFound
  | clientError
  | serverError
  | transportFailure
deriving DecidableEq, Repr

/-- Pure classification of a write response, mirroring the branch order of
writeBatch. -/
def respOutcome (r : WriteResp) : Outcome :=
  match r.transport with
  | some _ => .transportFailure
  | none =>
    if r.status ∈ [204, 200, 201, 202, 206, 207, 208] then .success
    else if r.status ∈ [400, 413, 422, 406] then .dropSilently
    else if r.status = 401 ∨ r.status = 403 then .unauthorized
    else if r.status ∈ [429, 503, 502, 504] then .throttle
    else if containsSubstr (descOf r) errStringBucketNotFound then .bucketNotFound
    else if is4xxLine (statusLineOf r.status r.reason) then .clientError
    else .serverError

/-- A sub-batch outcome that writeBatch absorbs (returns nil for): delivered,
or logged and intentionally dropped. -/
def absorbed (r : WriteResp) : Bool :=
  match respOutcome r with
  | .success => true
  | .dropSilently => true
  | .clientError => true
  | _ => false

/-! ## Bucket manager -/

/-- getOrgID (http.go:354-391): build the org-lookup URL, issue the request,
validate the body (validateResponse wraps invalid JSON into an APIError),
and succeed only with status 200 and exactly one org in the decoded list. -/
def getOrgID (cfg : Cfg) (r : OrgIDResp) : List Ev × Except CErr String :=
  match makeOrgIDURL cfg.url cfg.organization with
  | .error e => ([], .error (.urlErr e))
  | .ok _ =>
    match r.transport with
    | some msg => ([.orgReq cfg.organization r], .error (.transport msg))
    | none =>
      if r.bodyValid = false then
        ([.orgReq cfg.organization r],
         .error (.api r.status (statusLineOf r.status r.reason)
           ("An error response was received while attempting to get the organization's ID for: "
             ++ cfg.organization)))
      else if r.status = 200 ∧ r.orgs.length = 1 then
        ([.orgReq cfg.organization r], .ok (r.orgs.headD ""))
      else
        ([.orgReq cfg.organization r], .error (.orgLookup cfg.organization))

/-- CreateBucket (http.go:394-443): resolve the org id (aborting without a
creation request on failure), POST the creation payload, mark the bucket as
created exactly on status 201, and otherwise return an APIError built from
the decoded body (falling back to the status line). -/
def CreateBucket (cfg : Cfg) (st : ClientState) (bucket : String)
    (o : OrgIDResp × CreateResp) : ClientState × List Ev × Option CErr :=
  let (evs, orgRes) := getOrgID cfg o.1
  match orgRes with
  | .error e => (st, evs, some e)
  | .ok _orgId =>
    match makeCreateURL cfg.url with
    | .error e => (st, evs, some (.urlErr e))
    | .ok _ =>
      match o.2.transport with
      | some msg => (st, evs ++ [.createReq bucket o.2], some (.transport msg))
      | none =>
        if o.2.status = 201 then
          ({ st with created := bucket :: st.created },
           evs ++ [.createReq bucket o.2], none)
        else
          (st, evs ++ [.createReq bucket o.2],
           some (.api o.2.status (statusLineOf o.2.status o.2.reason)
             (match o.2.body with
              | some g => g.errString
              | none => statusLineOf o.2.status o.2.reason)))

/-- The inline creation guard of Write (http.go:233-237): skip when
auto-creation is disabled or the bucket is already recorded as created,
otherwise call CreateBucket, logging and continuing on failure. -/
def ensureBucket (cfg : Cfg) (st : ClientState) (bucket : String)
    (o : OrgIDResp × CreateResp) : ClientState × List Ev :=
  if cfg.skipBucketCreation = false ∧ bucket ∉ st.created then
    let (st', evs, _err) := CreateBucket cfg st bucket o
    (st', evs)
  else (st, [])

/-! ## Write: partitioning and the delivery loop -/

/-- Append a metric entry to its bucket's batch, inserting the bucket with an
empty batch first when absent (http.go:218-229).  New buckets appear in
first-occurrence order. -/
def addToBatches (bs : List (String × List Entry)) (bucket : String) (e : Entry) :
    List (String × List Entry) :=
  let bs := if (bs.lookup bucket).isSome then bs else bs ++ [(bucket, [])]
  bs.map (fun p => if p.1 = bucket then (p.1, p.2 ++ [e]) else p)

/-- The partitioning loop of Write (http.go:212-230), one iteration per input
metric (indices into the caller's slice): read the routing tag (defaulting to
the configured bucket), and when the tag is to be stripped, replace the entry
by a defensive copy and remove the tag from that copy, leaving the caller's
object untouched. -/
def partitionGo (cfg : Cfg) : List ℕ → List Metric × List (String × List Entry) →
    List Metric × List (String × List Entry)
  | [], acc => acc
  | i :: is, (store, bs) =>
    let m := store.getD i default
    let bucket :=
      match m.getTag cfg.bucketTag with
      | some v => v
      | none => cfg.bucket
    let (store', e) :=
      if cfg.excludeBucketTag then
        entryRemoveTag store (Entry.copy (resolveEntry store (.ref i))) cfg.bucketTag
      else (store, Entry.ref i)
    partitionGo cfg is (store', addToBatches bs bucket e)

/-- Partition the whole input batch by destination bucket. -/
def partitionMetrics (cfg : Cfg) (store : List Metric) :
    List Metric × List (String × List Entry) :=
  partitionGo cfg (List.range store.length) (store, [])

/-- The delivery loop of Write (http.go:232-243): for each bucket group in
turn, run the creation guard, then writeBatch, aborting the whole call on the
first writeBatch error.  The oracle index advances once per group. -/
def writeLoop (cfg : Cfg) (now : ℚ) (store : List Metric)
    (ensO : ℕ → OrgIDResp × CreateResp) (wrO : ℕ → WriteResp) :
    List (String × List Entry) → ClientState → ℕ → ClientState × List Ev × Option WErr
  | [], st, _ => (st, [], none)
  | (bucket, batch) :: rest, st, i =>
    let (st1, evE) := ensureBucket cfg st bucket (ensO i)
    let (st2, evW, res) :=
      writeBatch cfg st1 now bucket (batch.map (resolveEntry store)) (wrO i)
    match res with
    | some e => (st2, evE ++ evW, some e)
    | none =>
      let (st3, evs, r) := writeLoop cfg now store ensO wrO rest st2 (i + 1)
      (st3, evE ++ evW ++ evs, r)

/-- Write (http.go:200-247): fail fast while the retry window is active;
with no routing tag configured send the whole input to the default bucket
(with no creation attempt); otherwise partition by tag and run the delivery
loop.  Returns the final client state, the caller's metric objects after the
call, the event trace, and the error result. -/
def Write (cfg : Cfg) (st : ClientState) (now : ℚ) (store : List Metric)
    (ensO : ℕ → OrgIDResp × CreateResp) (wrO : ℕ → WriteResp) :
    ClientState × List Metric × List Ev × Option WErr :=
  if now < st.retryTime then (st, store, [], some .gate)
  else if cfg.bucketTag = "" then
    let entries := (List.range store.length).map Entry.ref
    let (st', evs, res) :=
      writeBatch cfg st now cfg.bucket (entries.map (resolveEntry store)) (wrO 0)
    (st', store, evs, res)
  else
    let (store', groups) := partitionMetrics cfg store
    let (st', evs, res) := writeLoop cfg now store' ensO wrO groups st 0
    (st', store', evs, res)

/-! ## Trace observations -/

/-- The buckets of the write requests in a trace, in order. -/
def writeReqBuckets (evs : List Ev) : List String :=
  evs.filterMap (fun e =>
    match e with
    | .writeReq b _ _ => some b
    | _ => none)

/-- How many bucket-creation requests for the given bucket a trace holds. -/
def countCreateReq (bucket : String) (evs : List Ev) : ℕ :=
  (evs.filter (fun e =>
    match e with
    | .createReq b _ => b = bucket
    | _ => false)).length

/-- How many org-lookup requests a trace holds. -/
def countOrgReq (evs : List Ev) : ℕ :=
  (evs.filter (fun e =>
    match e with
    | .orgReq _ _ => true
    | _ => false)).length

/-! ## Concrete instances used as witnesses and counterexamples -/

/-- A configuration with no routing tag and auto-creation enabled. -/
def exCfg : Cfg := ⟨⟨"https", "example.com", "", ""⟩, "org", "telegraf", "", false, false⟩

/-- A configuration with the routing tag bkt configured. -/
def exCfgTag : Cfg := ⟨⟨"https", "example.com", "", ""⟩, "org", "telegraf", "bkt", false, false⟩

/-- A quiescent client state. -/
def exSt : ClientState := ⟨0, 0, []⟩

/-- A 204 No Content write response. -/
def exRespOK : WriteResp := ⟨none, 204, "No Content", none, none, ""⟩

/-- A 429 response with no Retry-After header. -/
def exResp429 : WriteResp := ⟨none, 429, "Too Many Requests", none, none, ""⟩

/-- A 429 response carrying Retry-After: 5. -/
def exResp429ra5 : WriteResp := ⟨none, 429, "Too Many Requests", none, some (some 5), ""⟩

/-- A 404 response whose decoded body matches the bucket-not-found
signature. -/
def exRespBNF : WriteResp :=
  ⟨none, 404, "Not Found", some ⟨"not found", "not found: bucket", none, none⟩, none, ""⟩

/-- A successful org lookup. -/
def exOrgOK : OrgIDResp := ⟨none, 200, "OK", true, ["oid"]⟩

/-- A 201 Created bucket-creation response. -/
def exCr201 : CreateResp := ⟨none, 201, "Created", none⟩

/-- A failed (409 Conflict) bucket-creation response. -/
def exCr409 : CreateResp := ⟨none, 409, "Conflict", none⟩

/-- An oracle whose every creation attempt succeeds. -/
def exEnsO : ℕ → OrgIDResp × CreateResp := fun _ => (exOrgOK, exCr201)

/-- An oracle whose every write is acknowledged with 204. -/
def exWrOK : ℕ → WriteResp := fun _ => exRespOK

/-- A metric carrying the routing tag bkt = alpha. -/
def exMetric : Metric := ⟨"cpu", [("bkt", "alpha"), ("host", "x")], [("v", "1")], 0⟩

/-- The routing-tag configuration with tag stripping enabled. -/
def exCfgTagStrip : Cfg :=
  ⟨⟨"https", "example.com", "", ""⟩, "org", "telegraf", "bkt", true, false⟩

/-- A metric with no routing tag (routed to the default bucket). -/
def exMetric2 : Metric := ⟨"mem", [("host", "y")], [("v", "2")], 1⟩

/-- A 401 Unauthorized write response. -/
def exResp401 : WriteResp := ⟨none, 401, "Unauthorized", none, none, ""⟩

/-- An oracle whose first write succeeds and whose second is rejected with
401. -/
def exWrO2 : ℕ → WriteResp := fun i => if i = 0 then exRespOK else exResp401

/-! ## Basic lemmas -/

lemma makeWriteURL_ok (cfg : Cfg) (bucket : String) (hs : schemeOK cfg = true) :
    ∃ s, makeWriteURL cfg.url cfg.organization bucket = Except.ok s := by
  obtain ⟨⟨sc, host, path, rq⟩, org, bkt, btag, ex, skip⟩ := cfg
  simp only [schemeOK, Bool.decide_or, Bool.or_eq_true, decide_eq_true_eq] at hs
  rcases hs with h | h | h <;> subst h <;> exact ⟨_, rfl⟩

lemma makeOrgIDURL_ok (cfg : Cfg) (hs : schemeOK cfg = true) :
    ∃ s, makeOrgIDURL cfg.url cfg.organization = Except.ok s := by
  obtain ⟨⟨sc, host, path, rq⟩, org, bkt, btag, ex, skip⟩ := cfg
  simp only [schemeOK, Bool.decide_or, Bool.or_eq_true, decide_eq_true_eq] at hs
  rcases hs with h | h | h <;> subst h <;> exact ⟨_, rfl⟩

lemma makeCreateURL_ok (cfg : Cfg) (hs : schemeOK cfg = true) :
    ∃ s, makeCreateURL cfg.url = Except.ok s := by
  obtain ⟨⟨sc, host, path, rq⟩, org, bkt, btag, ex, skip⟩ := cfg
  simp only [schemeOK, Bool.decide_or, Bool.or_eq_true, decide_eq_true_eq] at hs
  rcases hs with h | h | h <;> subst h <;> exact ⟨_, rfl⟩

lemma repr_head_four (s : ℕ) (h1 : 400 ≤ s) (h2 : s < 500) :
    (Nat.repr s).data.head? = some '4' := by
  interval_cases s <;> decide

lemma is4xxLine_statusLineOf (s : ℕ) (h1 : 400 ≤ s) (h2 : s < 500) (reason : String) :
    is4xxLine (statusLineOf s reason) = true := by
  have h := repr_head_four s h1 h2
  unfold is4xxLine statusLineOf
  rw [String.data_append, String.data_append]
  cases hd : (Nat.repr s).data with
  | nil => rw [hd] at h; simp at h
  | cons c tl =>
    rw [hd] at h
    simp only [List.head?_cons, Option.some.injEq] at h
    subst h
    simp

lemma getRetryDuration_thirty_none : getRetryDuration 30 none = 22 := by
  show (⌊min (max (((30 : ℕ) : ℚ) ^ 2 / 40) 0) 60⌋ : ℤ) = 22
  have harg : min (max (((30 : ℕ) : ℚ) ^ 2 / 40) 0) 60 = 45 / 2 := by
    rw [max_def, min_def]
    norm_num
  rw [harg, Int.floor_eq_iff]
  norm_num

lemma getRetryDuration_one_five : getRetryDuration 1 (some (some 5)) = 5 := by
  show (⌊min (max (((1 : ℕ) : ℚ) ^ 2 / 40) 5) 60⌋ : ℤ) = 5
  have harg : min (max (((1 : ℕ) : ℚ) ^ 2 / 40) 5) 60 = 5 := by
    rw [max_def, min_def]
    norm_num
  rw [harg, Int.floor_eq_iff]
  norm_num

lemma writeBatch_err_ne_gate (cfg : Cfg) (st : ClientState) (now : ℚ) (bucket : String)
    (ms : List Metric) (r : WriteResp) :
    (writeBatch cfg st now bucket ms r).2.2 ≠ some WErr.gate := by
  unfold writeBatch
  repeat' split
  all_goals try simp
  all_goals (split <;> simp)

lemma writeLoop_err_ne_gate (cfg : Cfg) (now : ℚ) (store : List Metric)
    (ensO : ℕ → OrgIDResp × CreateResp) (wrO : ℕ → WriteResp)
    (groups : List (String × List Entry)) (st : ClientState) (i : ℕ) :
    (writeLoop cfg now store ensO wrO groups st i).2.2 ≠ some WErr.gate := by
  induction groups generalizing st i with
  | nil => simp [writeLoop]
  | cons g rest ih =>
    obtain ⟨bucket, batch⟩ := g
    rcases hens : ensureBucket cfg st bucket (ensO i) with ⟨st1, evE⟩
    rcases hwb : writeBatch cfg st1 now bucket (batch.map (resolveEntry store)) (wrO i) with
      ⟨st2, evW, res⟩
    simp only [writeLoop, hens, hwb]
    cases res with
    | some e =>
      have hne := writeBatch_err_ne_gate cfg st1 now bucket (batch.map (resolveEntry store)) (wrO i)
      rw [hwb] at hne
      simpa using hne
    | none =>
      rcases hrec : writeLoop cfg now store ensO wrO rest st2 (i + 1) with ⟨st3, evs, rr⟩
      have hih := ih st2 (i + 1)
      rw [hrec] at hih
      simpa using hih

/-! ## Claims -/

/-- C7: for every write response with status in {204, 200, 201, 202, 206,
207, 208}, writeBatch classifies the send as Success, returns nil, sets
retryCount to 0, and leaves retryNotBefore (and the created-bucket set)
unchanged. -/
theorem claim_C7 (cfg : Cfg) (st : ClientState) (now : ℚ) (bucket : String)
    (ms : List Metric) (r : WriteResp) (hs : schemeOK cfg = true)
    (ht : r.transport = none)
    (hstat : r.status ∈ [204, 200, 201, 202, 206, 207, 208]) :
    respOutcome r = Outcome.success ∧
    writeBatch cfg st now bucket ms r =
      ({ st with retryCount := 0 }, [Ev.writeReq bucket ms r], none) := by
  obtain ⟨s, hok⟩ := makeWriteURL_ok cfg bucket hs
  constructor
  · unfold respOutcome
    rw [ht, if_pos hstat]
  · unfold writeBatch
    rw [hok, ht]
    simp only
    rw [if_pos hstat]

theorem claim_C7_witness :
    respOutcome exRespOK = Outcome.success ∧
    writeBatch exCfg ⟨7, 3, ["x"]⟩ 5 "b" [] exRespOK =
      (⟨0, 3, ["x"]⟩, [Ev.writeReq "b" [] exRespOK], none) :=
  claim_C7 exCfg ⟨7, 3, ["x"]⟩ 5 "b" [] exRespOK (by decide) rfl (by decide)

/-- C2 (amended): on every Throttle-classified response (429, 502, 503,
504), writeBatch increments retryCount and installs
retryNotBefore = now + d where d is min(max(newCount² / 40, retryAfter), 60)
truncated to a whole number of seconds (retryAfter being the parsed
Retry-After header, 10 when present but unparseable, 0 when absent), and the
count entering the backoff computation is the incremented one; in
particular, with no header and a count of 30 at the computation (29 entering
writeBatch) the exact backoff 22.5 is installed as 22 seconds. -/
theorem claim_C2 (cfg : Cfg) (st : ClientState) (now : ℚ) (bucket : String)
    (ms : List Metric) (r : WriteResp) (hs : schemeOK cfg = true)
    (ht : r.transport = none) (hstat : r.status ∈ [429, 502, 503, 504]) :
    writeBatch cfg st now bucket ms r =
      ({ st with retryCount := st.retryCount + 1,
                 retryTime :=
                   now + ((getRetryDuration (st.retryCount + 1) r.retryAfter : ℤ) : ℚ) },
       [Ev.writeReq bucket ms r],
       some (WErr.throttle (getRetryDuration (st.retryCount + 1) r.retryAfter))) ∧
    getRetryDuration (st.retryCount + 1) r.retryAfter =
      ⌊min (max (((st.retryCount + 1 : ℕ) : ℚ) ^ 2 / 40)
        (match r.retryAfter with
         | none => 0
         | some none => 10
         | some (some q) => q)) 60⌋ ∧
    getRetryDuration 30 none = 22 := by
  obtain ⟨s, hok⟩ := makeWriteURL_ok cfg bucket hs
  refine ⟨?_, rfl, getRetryDuration_thirty_none⟩
  simp only [List.mem_cons, List.mem_singleton, List.not_mem_nil, or_false] at hstat
  unfold writeBatch
  rw [hok, ht]
  simp only
  rcases hstat with h | h | h | h <;> rw [h] <;> simp [getRetryDuration]

theorem claim_C2_witness :
    writeBatch exCfg ⟨0, 0, []⟩ 100 "b" [] exResp429ra5 =
      (⟨1, 105, []⟩, [Ev.writeReq "b" [] exResp429ra5],
       some (WErr.throttle 5)) ∧
    getRetryDuration 30 none = 22 := by
  have h := claim_C2 exCfg ⟨0, 0, []⟩ 100 "b" [] exResp429ra5 (by decide) rfl (by decide)
  refine ⟨?_, h.2.2⟩
  rw [h.1]
  have h5 : getRetryDuration (0 + 1) exResp429ra5.retryAfter = 5 := getRetryDuration_one_five
  rw [h5]
  norm_num

/-- C2 counterexample: with status 429, no Retry-After header and
retryCount 29 entering writeBatch (so 30 at the backoff computation), the
client installs retryNotBefore = now + 22, not the exact
now + min(max(30² / 40, 0), 60) = now + 22.5 seconds the claim states: the
float-to-Duration conversion truncates the delay to whole seconds. -/
theorem claim_C2_counterexample :
    (writeBatch exCfg ⟨29, 0, []⟩ 0 "b" [] exResp429).1.retryTime = 22 ∧
    (writeBatch exCfg ⟨29, 0, []⟩ 0 "b" [] exResp429).1.retryTime ≠
      0 + min (max ((30 : ℚ) ^ 2 / 40) 0) 60 := by
  have h1 : (writeBatch exCfg ⟨29, 0, []⟩ 0 "b" [] exResp429).1.retryTime =
      0 + ((getRetryDuration 30 none : ℤ) : ℚ) := rfl
  rw [h1, getRetryDuration_thirty_none]
  constructor
  · norm_num
  · rw [max_def, min_def]
    norm_num

/-- C3 (amended): statuses 400, 413, 422 and 406 are logged, dropped and
absorbed (no error) whatever the body; any other 4xx status that is not 401,
403 or 429 is likewise absorbed, provided the decoded error description does
not contain the bucket-not-found signature (a 4xx whose description matches
the signature returns BucketNotFoundError instead). -/
theorem claim_C3 (cfg : Cfg) (st : ClientState) (now : ℚ) (bucket : String)
    (ms : List Metric) (r : WriteResp) (hs : schemeOK cfg = true)
    (ht : r.transport = none) :
    (r.status ∈ [400, 413, 422, 406] →
      writeBatch cfg st now bucket ms r = (st, [Ev.writeReq bucket ms r], none)) ∧
    (400 ≤ r.status → r.status < 500 →
      r.status ∉ [400, 413, 422, 406] →
      r.status ≠ 401 → r.status ≠ 403 → r.status ≠ 429 →
      containsSubstr (descOf r) errStringBucketNotFound = false →
      writeBatch cfg st now bucket ms r = (st, [Ev.writeReq bucket ms r], none)) := by
  obtain ⟨s, hok⟩ := makeWriteURL_ok cfg bucket hs
  constructor
  · intro hstat
    have hnsucc : r.status ∉ [204, 200, 201, 202, 206, 207, 208] := by
      simp only [List.mem_cons, List.mem_singleton, List.not_mem_nil, or_false] at hstat ⊢
      rcases hstat with h | h | h | h <;> rw [h] <;> decide
    unfold writeBatch
    rw [hok, ht]
    simp only
    rw [if_neg hnsucc, if_pos hstat]
  · intro h4a h4b hnd hn1 hn3 hn9 hsig
    have hnsucc : r.status ∉ [204, 200, 201, 202, 206, 207, 208] := by
      intro hmem
      simp only [List.mem_cons, List.mem_singleton, List.not_mem_nil, or_false] at hmem
      rcases hmem with h | h | h | h | h | h | h <;> omega
    have hna : ¬(r.status = 401 ∨ r.status = 403) := by
      rintro (h | h) <;> [exact hn1 h; exact hn3 h]
    have hnthr : r.status ∉ [429, 503, 502, 504] := by
      intro hmem
      simp only [List.mem_cons, List.mem_singleton, List.not_mem_nil, or_false] at hmem
      rcases hmem with h | h | h | h <;> omega
    have h4x : is4xxLine (statusLineOf r.status r.reason) = true :=
      is4xxLine_statusLineOf r.status h4a h4b r.reason
    unfold writeBatch
    rw [hok, ht]
    simp only
    rw [if_neg hnsucc, if_neg hnd, if_neg hna, if_neg hnthr]
    rw [hsig]
    simp only [Bool.false_eq_true, if_false]
    rw [if_pos h4x]

theorem claim_C3_witness :
    writeBatch exCfg exSt 0 "b" [] ⟨none, 422, "Unprocessable Entity", none, none, ""⟩ =
      (exSt, [Ev.writeReq "b" [] ⟨none, 422, "Unprocessable Entity", none, none, ""⟩], none) ∧
    writeBatch exCfg exSt 0 "b" [] ⟨none, 404, "Not Found", none, none, ""⟩ =
      (exSt, [Ev.writeReq "b" [] ⟨none, 404, "Not Found", none, none, ""⟩], none) :=
  ⟨(claim_C3 exCfg exSt 0 "b" [] ⟨none, 422, "Unprocessable Entity", none, none, ""⟩
      (by decide) rfl).1 (by decide),
   (claim_C3 exCfg exSt 0 "b" [] ⟨none, 404, "Not Found", none, none, ""⟩
      (by decide) rfl).2 (by decide) (by decide) (by decide) (by decide) (by decide)
      (by decide) (by decide)⟩

/-- C3 counterexample: a 404 response (a 4xx that is not 400/413/422/406,
401, 403 or 429) whose decoded description contains the bucket-not-found
signature is not dropped: writeBatch returns a BucketNotFoundError to the
caller instead of absorbing the failure. -/
theorem claim_C3_counterexample :
    (writeBatch exCfg exSt 0 "b" [] exRespBNF).2.2 =
      some (WErr.bucketNotFound 404 "404 Not Found" "not found: not found: bucket" "b") ∧
    (writeBatch exCfg exSt 0 "b" [] exRespBNF).2.2 ≠ none := by
  constructor <;> decide

/-- C5: a Write entered while the current time is strictly before
retryNotBefore fails immediately with the retry-window error, leaves the
state and the metrics untouched and issues no HTTP request; and the gate is
only evaluated at entry: a Write entered at or after retryNotBefore never
returns the gate error, whatever the oracles do to the retry state
mid-call. -/
theorem claim_C5 (cfg : Cfg) (st : ClientState) (now : ℚ) (store : List Metric)
    (ensO : ℕ → OrgIDResp × CreateResp) (wrO : ℕ → WriteResp) :
    (now < st.retryTime →
      Write cfg st now store ensO wrO = (st, store, [], some WErr.gate)) ∧
    (st.retryTime ≤ now →
      (Write cfg st now store ensO wrO).2.2.2 ≠ some WErr.gate) := by
  constructor
  · intro h
    simp [Write, h]
  · intro h
    have hlt : ¬ now < st.retryTime := not_lt.mpr h
    unfold Write
    rw [if_neg hlt]
    by_cases htag : cfg.bucketTag = ""
    · rw [if_pos htag]
      rcases hwb : writeBatch cfg st now cfg.bucket
          (((List.range store.length).map Entry.ref).map (resolveEntry store)) (wrO 0) with
        ⟨st2, evs2, res2⟩
      have hne := writeBatch_err_ne_gate cfg st now cfg.bucket
        (((List.range store.length).map Entry.ref).map (resolveEntry store)) (wrO 0)
      rw [hwb] at hne
      simp only [hwb]
      simpa using hne
    · rw [if_neg htag]
      rcases hpl : partitionMetrics cfg store with ⟨store2, groups⟩
      rcases hwl : writeLoop cfg now store2 ensO wrO groups st 0 with ⟨st2, evs2, res2⟩
      have hne := writeLoop_err_ne_gate cfg now store2 ensO wrO groups st 0
      rw [hwl] at hne
      simp only [hpl, hwl]
      simpa using hne

theorem claim_C5_witness :
    Write exCfg ⟨5, 10, []⟩ 3 [] exEnsO exWrOK = (⟨5, 10, []⟩, [], [], some WErr.gate) ∧
    (Write exCfg ⟨5, 10, []⟩ 10 [] exEnsO exWrOK).2.2.2 ≠ some WErr.gate :=
  ⟨(claim_C5 exCfg ⟨5, 10, []⟩ 3 [] exEnsO exWrOK).1 (by norm_num),
   (claim_C5 exCfg ⟨5, 10, []⟩ 10 [] exEnsO exWrOK).2 (by norm_num)⟩

lemma partitionGo_store (cfg : Cfg) (is : List ℕ) (store : List Metric)
    (bs : List (String × List Entry)) :
    (partitionGo cfg is (store, bs)).1 = store := by
  induction is generalizing store bs with
  | nil => rfl
  | cons i rest ih =>
    simp only [partitionGo]
    by_cases hex : cfg.excludeBucketTag = true <;>
      simp only [hex, if_true, if_false, Bool.false_eq_true, entryRemoveTag, resolveEntry] <;>
      exact ih store _

/-- C9: with a routing tag configured and tag stripping enabled, the
caller's metric objects are unchanged after Write: the tag is removed only
from a per-metric defensive copy, so the originals keep all their tags for a
caller-level retry. -/
theorem claim_C9 (cfg : Cfg) (st : ClientState) (now : ℚ) (store : List Metric)
    (ensO : ℕ → OrgIDResp × CreateResp) (wrO : ℕ → WriteResp)
    (htag : cfg.bucketTag ≠ "") (hex : cfg.excludeBucketTag = true) :
    (Write cfg st now store ensO wrO).2.1 = store := by
  unfold Write
  by_cases hgate : now < st.retryTime
  · rw [if_pos hgate]
  · rw [if_neg hgate, if_neg htag]
    rcases hpl : partitionMetrics cfg store with ⟨store2, groups⟩
    have hst : store2 = store := by
      have h : (partitionMetrics cfg store).1 = store :=
        partitionGo_store cfg (List.range store.length) store []
      rw [hpl] at h
      exact h
    simp only [hpl]
    exact hst

theorem claim_C9_witness :
    (Write exCfgTagStrip exSt 0 [exMetric] exEnsO exWrOK).2.1 = [exMetric] :=
  claim_C9 exCfgTagStrip exSt 0 [exMetric] exEnsO exWrOK (by decide) rfl

/-! ## Lemmas on the created-bucket set -/

lemma writeBatch_created (cfg : Cfg) (st : ClientState) (now : ℚ) (bucket : String)
    (ms : List Metric) (r : WriteResp) :
    (writeBatch cfg st now bucket ms r).1.created = st.created := by
  unfold writeBatch
  repeat' split
  all_goals try rfl
  all_goals (split <;> rfl)

lemma getOrgID_no_createReq (cfg : Cfg) (r : OrgIDResp) (x : String) (r' : CreateResp) :
    Ev.createReq x r' ∉ (getOrgID cfg r).1 := by
  unfold getOrgID
  repeat' split
  all_goals simp

lemma getOrgID_no_writeReq (cfg : Cfg) (r : OrgIDResp) (b' : String) (ms' : List Metric)
    (r' : WriteResp) :
    Ev.writeReq b' ms' r' ∉ (getOrgID cfg r).1 := by
  unfold getOrgID
  repeat' split
  all_goals simp

lemma CreateBucket_created_mono (cfg : Cfg) (st : ClientState) (b : String)
    (o : OrgIDResp × CreateResp) (x : String) (hx : x ∈ st.created) :
    x ∈ (CreateBucket cfg st b o).1.created := by
  unfold CreateBucket
  rcases hgo : getOrgID cfg o.1 with ⟨evs, orgRes⟩
  simp only [hgo]
  repeat' split
  all_goals simp_all [List.mem_cons]

lemma CreateBucket_created_new (cfg : Cfg) (st : ClientState) (b : String)
    (o : OrgIDResp × CreateResp) (x : String)
    (hx : x ∈ (CreateBucket cfg st b o).1.created) :
    x ∈ st.created ∨ (x = b ∧ o.2.transport = none ∧ o.2.status = 201 ∧
      Ev.createReq b o.2 ∈ (CreateBucket cfg st b o).2.1) := by
  revert hx
  unfold CreateBucket
  rcases hgo : getOrgID cfg o.1 with ⟨evs, orgRes⟩
  simp only [hgo]
  repeat' split
  all_goals (intro hx; simp_all [List.mem_cons])
  all_goals tauto

lemma CreateBucket_createReq_own (cfg : Cfg) (st : ClientState) (b : String)
    (o : OrgIDResp × CreateResp) (x : String) (r' : CreateResp)
    (hx : Ev.createReq x r' ∈ (CreateBucket cfg st b o).2.1) : x = b ∧ r' = o.2 := by
  have hno := getOrgID_no_createReq cfg o.1 x r'
  revert hx
  unfold CreateBucket
  rcases hgo : getOrgID cfg o.1 with ⟨evs, orgRes⟩
  rw [hgo] at hno
  simp only [hgo]
  repeat' split
  all_goals (intro hx; simp only [List.mem_append, List.mem_singleton] at hx)
  all_goals try exact absurd hx hno
  all_goals
    rcases hx with h | h
    · exact absurd h hno
    · simp only [Ev.createReq.injEq] at h
      exact ⟨h.1, h.2⟩

lemma CreateBucket_no_writeReq (cfg : Cfg) (st : ClientState) (b : String)
    (o : OrgIDResp × CreateResp) (b' : String) (ms' : List Metric) (r' : WriteResp) :
    Ev.writeReq b' ms' r' ∉ (CreateBucket cfg st b o).2.1 := by
  have hno := getOrgID_no_writeReq cfg o.1 b' ms' r'
  unfold CreateBucket
  rcases hgo : getOrgID cfg o.1 with ⟨evs, orgRes⟩
  rw [hgo] at hno
  simp only [hgo]
  repeat' split
  all_goals simp_all

lemma ensureBucket_created_mono (cfg : Cfg) (st : ClientState) (b : String)
    (o : OrgIDResp × CreateResp) (x : String) (hx : x ∈ st.created) :
    x ∈ (ensureBucket cfg st b o).1.created := by
  unfold ensureBucket
  split
  · rcases hcb : CreateBucket cfg st b o with ⟨st', evs, err⟩
    have h := CreateBucket_created_mono cfg st b o x hx
    rw [hcb] at h
    simpa [hcb] using h
  · exact hx

lemma ensureBucket_created_new (cfg : Cfg) (st : ClientState) (b : String)
    (o : OrgIDResp × CreateResp) (x : String)
    (hx : x ∈ (ensureBucket cfg st b o).1.created) :
    x ∈ st.created ∨ (x = b ∧ o.2.transport = none ∧ o.2.status = 201 ∧
      Ev.createReq b o.2 ∈ (ensureBucket cfg st b o).2) := by
  revert hx
  unfold ensureBucket
  split
  · rcases hcb : CreateBucket cfg st b o with ⟨st', evs, err⟩
    intro hx
    have h := CreateBucket_created_new cfg st b o x
    rw [hcb] at h
    simp only at hx ⊢
    exact h (by simpa using hx)
  · exact fun hx => Or.inl hx

lemma ensureBucket_createReq_own (cfg : Cfg) (st : ClientState) (b : String)
    (o : OrgIDResp × CreateResp) (x : String) (r' : CreateResp)
    (hx : Ev.createReq x r' ∈ (ensureBucket cfg st b o).2) :
    x = b ∧ cfg.skipBucketCreation = false ∧ b ∉ st.created := by
  revert hx
  unfold ensureBucket
  split
  · rcases hcb : CreateBucket cfg st b o with ⟨st', evs, err⟩
    intro hx
    have h := CreateBucket_createReq_own cfg st b o x r'
    rw [hcb] at h
    simp only at hx
    rename_i hcond
    exact ⟨(h (by simpa using hx)).1, hcond.1, hcond.2⟩
  · intro hx
    simp at hx

lemma ensureBucket_no_writeReq (cfg : Cfg) (st : ClientState) (b : String)
    (o : OrgIDResp × CreateResp) (b' : String) (ms' : List Metric) (r' : WriteResp) :
    Ev.writeReq b' ms' r' ∉ (ensureBucket cfg st b o).2 := by
  unfold ensureBucket
  split
  · rcases hcb : CreateBucket cfg st b o with ⟨st', evs, err⟩
    have h := CreateBucket_no_writeReq cfg st b o b' ms' r'
    rw [hcb] at h
    simpa using h
  · simp

lemma ensureBucket_skip_of_created (cfg : Cfg) (st : ClientState) (b : String)
    (o : OrgIDResp × CreateResp) (hb : b ∈ st.created) :
    ensureBucket cfg st b o = (st, []) := by
  unfold ensureBucket
  rw [if_neg]
  simp [hb]

lemma writeLoop_created_mono (cfg : Cfg) (now : ℚ) (store : List Metric)
    (ensO : ℕ → OrgIDResp × CreateResp) (wrO : ℕ → WriteResp)
    (groups : List (String × List Entry)) (st : ClientState) (i : ℕ) (x : String)
    (hx : x ∈ st.created) :
    x ∈ (writeLoop cfg now store ensO wrO groups st i).1.created := by
  induction groups generalizing st i with
  | nil => simpa [writeLoop] using hx
  | cons g rest ih =>
    obtain ⟨bucket, batch⟩ := g
    rcases hens : ensureBucket cfg st bucket (ensO i) with ⟨st1, evE⟩
    rcases hwb : writeBatch cfg st1 now bucket (batch.map (resolveEntry store)) (wrO i) with
      ⟨st2, evW, res⟩
    have hx1 : x ∈ st1.created := by
      have h := ensureBucket_created_mono cfg st bucket (ensO i) x hx
      rw [hens] at h
      exact h
    have hx2 : x ∈ st2.created := by
      have h := writeBatch_created cfg st1 now bucket (batch.map (resolveEntry store)) (wrO i)
      rw [hwb] at h
      simp only at h
      rw [h]
      exact hx1
    simp only [writeLoop, hens, hwb]
    cases res with
    | some e => exact hx2
    | none =>
      rcases hrec : writeLoop cfg now store ensO wrO rest st2 (i + 1) with ⟨st3, evs, rr⟩
      have h := ih st2 (i + 1) hx2
      rw [hrec] at h
      simpa using h

lemma writeLoop_created_new (cfg : Cfg) (now : ℚ) (store : List Metric)
    (ensO : ℕ → OrgIDResp × CreateResp) (wrO : ℕ → WriteResp)
    (groups : List (String × List Entry)) (st : ClientState) (i : ℕ) (x : String)
    (hx : x ∈ (writeLoop cfg now store ensO wrO groups st i).1.created) :
    x ∈ st.created ∨ ∃ cr : CreateResp, cr.transport = none ∧ cr.status = 201 ∧
      Ev.createReq x cr ∈ (writeLoop cfg now store ensO wrO groups st i).2.1 := by
  induction groups generalizing st i with
  | nil => exact Or.inl (by simpa [writeLoop] using hx)
  | cons g rest ih =>
    obtain ⟨bucket, batch⟩ := g
    rcases hens : ensureBucket cfg st bucket (ensO i) with ⟨st1, evE⟩
    rcases hwb : writeBatch cfg st1 now bucket (batch.map (resolveEntry store)) (wrO i) with
      ⟨st2, evW, res⟩
    have hcr12 : st2.created = st1.created := by
      have h := writeBatch_created cfg st1 now bucket (batch.map (resolveEntry store)) (wrO i)
      rw [hwb] at h
      exact h
    have hnew1 : x ∈ st1.created → x ∈ st.created ∨
        (x = bucket ∧ (ensO i).2.transport = none ∧ (ensO i).2.status = 201 ∧
         Ev.createReq bucket (ensO i).2 ∈ evE) := by
      intro hmem
      have h := ensureBucket_created_new cfg st bucket (ensO i) x
      rw [hens] at h
      exact h hmem
    rw [writeLoop] at hx
    simp only [hens, hwb] at hx
    simp only [writeLoop, hens, hwb]
    cases res with
    | some e =>
      simp only at hx
      rcases hnew1 (hcr12 ▸ hx) with hl | ⟨hxb, hct, hcs, hcm⟩
      · exact Or.inl hl
      · exact Or.inr ⟨(ensO i).2, hct, hcs, by simp [hxb ▸ hcm]⟩
    | none =>
      rcases hrec : writeLoop cfg now store ensO wrO rest st2 (i + 1) with ⟨st3, evs, rr⟩
      rw [hrec] at hx
      simp only at hx
      have hih := ih st2 (i + 1)
      rw [hrec] at hih
      rcases hih hx with hmem2 | ⟨cr, hct, hcs, hcm⟩
      · rcases hnew1 (hcr12 ▸ hmem2) with hl | ⟨hxb, hct, hcs, hcm⟩
        · exact Or.inl hl
        · exact Or.inr ⟨(ensO i).2, hct, hcs, by simp [hxb ▸ hcm]⟩
      · exact Or.inr ⟨cr, hct, hcs, by simp only at hcm ⊢; simp [hcm]⟩

lemma writeLoop_no_createReq_of_created (cfg : Cfg) (now : ℚ) (store : List Metric)
    (ensO : ℕ → OrgIDResp × CreateResp) (wrO : ℕ → WriteResp)
    (groups : List (String × List Entry)) (st : ClientState) (i : ℕ) (x : String)
    (hx : x ∈ st.created) (r' : CreateResp) :
    Ev.createReq x r' ∉ (writeLoop cfg now store ensO wrO groups st i).2.1 := by
  induction groups generalizing st i with
  | nil => simp [writeLoop]
  | cons g rest ih =>
    obtain ⟨bucket, batch⟩ := g
    rcases hens : ensureBucket cfg st bucket (ensO i) with ⟨st1, evE⟩
    rcases hwb : writeBatch cfg st1 now bucket (batch.map (resolveEntry store)) (wrO i) with
      ⟨st2, evW, res⟩
    have hE : Ev.createReq x r' ∉ evE := by
      intro hmem
      have h := ensureBucket_createReq_own cfg st bucket (ensO i) x r'
      rw [hens] at h
      obtain ⟨hxb, _, hnb⟩ := h hmem
      exact hnb (hxb ▸ hx)
    have hW : Ev.createReq x r' ∉ evW := by
      intro hmem
      have h : (writeBatch cfg st1 now bucket (batch.map (resolveEntry store)) (wrO i)).2.1
          = evW := by rw [hwb]
      rw [← h] at hmem
      revert hmem
      unfold writeBatch
      repeat' split
      all_goals simp
    have hx2 : x ∈ st2.created := by
      have hm := ensureBucket_created_mono cfg st bucket (ensO i) x hx
      rw [hens] at hm
      have hc := writeBatch_created cfg st1 now bucket (batch.map (resolveEntry store)) (wrO i)
      rw [hwb] at hc
      simp only at hc hm
      rw [hc]
      exact hm
    simp only [writeLoop, hens, hwb]
    cases res with
    | some e =>
      simp only [List.mem_append]
      rintro (h | h)
      · exact hE h
      · exact hW h
    | none =>
      rcases hrec : writeLoop cfg now store ensO wrO rest st2 (i + 1) with ⟨st3, evs, rr⟩
      have hR := ih st2 (i + 1) hx2
      rw [hrec] at hR
      simp only [List.mem_append]
      rintro ((h | h) | h)
      · exact hE h
      · exact hW h
      · exact hR h

lemma writeBatch_no_createReq (cfg : Cfg) (st : ClientState) (now : ℚ) (bucket : String)
    (ms : List Metric) (r : WriteResp) (x : String) (r' : CreateResp) :
    Ev.createReq x r' ∉ (writeBatch cfg st now bucket ms r).2.1 := by
  unfold writeBatch
  repeat' split
  all_goals simp

lemma Write_no_createReq_of_created (cfg : Cfg) (st : ClientState) (now : ℚ)
    (store : List Metric) (ensO : ℕ → OrgIDResp × CreateResp) (wrO : ℕ → WriteResp)
    (x : String) (hx : x ∈ st.created) (r' : CreateResp) :
    Ev.createReq x r' ∉ (Write cfg st now store ensO wrO).2.2.1 := by
  unfold Write
  by_cases hgate : now < st.retryTime
  · rw [if_pos hgate]
    simp
  · rw [if_neg hgate]
    by_cases htag : cfg.bucketTag = ""
    · rw [if_pos htag]
      rcases hwb : writeBatch cfg st now cfg.bucket
          (((List.range store.length).map Entry.ref).map (resolveEntry store)) (wrO 0) with
        ⟨st2, evs2, res2⟩
      simp only [hwb]
      have h := writeBatch_no_createReq cfg st now cfg.bucket
        (((List.range store.length).map Entry.ref).map (resolveEntry store)) (wrO 0) x r'
      rw [hwb] at h
      simpa using h
    · rw [if_neg htag]
      rcases hpl : partitionMetrics cfg store with ⟨store2, groups⟩
      simp only [hpl]
      rcases hwl : writeLoop cfg now store2 ensO wrO groups st 0 with ⟨st2, evs2, res2⟩
      simp only [hwl]
      have h := writeLoop_no_createReq_of_created cfg now store2 ensO wrO groups st 0 x hx r'
      rw [hwl] at h
      simpa using h

/-- C10: the set of buckets recorded as created only grows over the
client's lifetime: all buckets recorded before a Write are still recorded
after it; a bucket recorded after a Write was either already recorded or a
creation request for it in this very call was answered 201; and no creation
request is ever issued for a bucket already recorded — in particular a
BucketNotFoundError on a write does not un-mark the bucket, so a bucket once
created and later vanished server-side is never re-created by this client
instance. -/
theorem claim_C10 (cfg : Cfg) (st : ClientState) (now : ℚ) (store : List Metric)
    (ensO : ℕ → OrgIDResp × CreateResp) (wrO : ℕ → WriteResp) :
    (∀ x ∈ st.created, x ∈ (Write cfg st now store ensO wrO).1.created) ∧
    (∀ x, x ∈ (Write cfg st now store ensO wrO).1.created →
      x ∈ st.created ∨ ∃ cr : CreateResp, cr.transport = none ∧ cr.status = 201 ∧
        Ev.createReq x cr ∈ (Write cfg st now store ensO wrO).2.2.1) ∧
    (∀ x ∈ st.created, ∀ r' : CreateResp,
      Ev.createReq x r' ∉ (Write cfg st now store ensO wrO).2.2.1) := by
  refine ⟨?_, ?_, fun x hx r' => Write_no_createReq_of_created cfg st now store ensO wrO x hx r'⟩
  · intro x hx
    unfold Write
    by_cases hgate : now < st.retryTime
    · rw [if_pos hgate]
      exact hx
    · rw [if_neg hgate]
      by_cases htag : cfg.bucketTag = ""
      · rw [if_pos htag]
        rcases hwb : writeBatch cfg st now cfg.bucket
            (((List.range store.length).map Entry.ref).map (resolveEntry store)) (wrO 0) with
          ⟨st2, evs2, res2⟩
        simp only [hwb]
        have h := writeBatch_created cfg st now cfg.bucket
          (((List.range store.length).map Entry.ref).map (resolveEntry store)) (wrO 0)
        rw [hwb] at h
        simp only at h ⊢
        rw [h]
        exact hx
      · rw [if_neg htag]
        rcases hpl : partitionMetrics cfg store with ⟨store2, groups⟩
        simp only [hpl]
        rcases hwl : writeLoop cfg now store2 ensO wrO groups st 0 with ⟨st2, evs2, res2⟩
        simp only [hwl]
        have h := writeLoop_created_mono cfg now store2 ensO wrO groups st 0 x hx
        rw [hwl] at h
        exact h
  · intro x
    unfold Write
    by_cases hgate : now < st.retryTime
    · rw [if_pos hgate]
      exact fun hx => Or.inl hx
    · rw [if_neg hgate]
      by_cases htag : cfg.bucketTag = ""
      · rw [if_pos htag]
        rcases hwb : writeBatch cfg st now cfg.bucket
            (((List.range store.length).map Entry.ref).map (resolveEntry store)) (wrO 0) with
          ⟨st2, evs2, res2⟩
        simp only [hwb]
        have h := writeBatch_created cfg st now cfg.bucket
          (((List.range store.length).map Entry.ref).map (resolveEntry store)) (wrO 0)
        rw [hwb] at h
        simp only at h
        intro hx
        rw [h] at hx
        exact Or.inl hx
      · rw [if_neg htag]
        rcases hpl : partitionMetrics cfg store with ⟨store2, groups⟩
        simp only [hpl]
        rcases hwl : writeLoop cfg now store2 ensO wrO groups st 0 with ⟨st2, evs2, res2⟩
        simp only [hwl]
        intro hx
        have h := writeLoop_created_new cfg now store2 ensO wrO groups st 0 x
        rw [hwl] at h
        exact h hx

theorem claim_C10_witness :
    "x" ∈ (Write exCfgTag ⟨0, 0, ["x"]⟩ 0 [exMetric] exEnsO exWrOK).1.created :=
  (claim_C10 exCfgTag ⟨0, 0, ["x"]⟩ 0 [exMetric] exEnsO exWrOK).1 "x" (by decide)

lemma getOrgID_ok_eval (cfg : Cfg) (orgR : OrgIDResp) (hs : schemeOK cfg = true)
    (ho1 : orgR.transport = none) (ho2v : orgR.bodyValid = true)
    (ho3 : orgR.status = 200) (ho4 : orgR.orgs.length = 1) :
    getOrgID cfg orgR = ([Ev.orgReq cfg.organization orgR], Except.ok (orgR.orgs.headD "")) := by
  obtain ⟨s1, h1⟩ := makeOrgIDURL_ok cfg hs
  unfold getOrgID
  rw [h1, ho1]
  simp [ho2v, ho3, ho4]

lemma CreateBucket_ok_eval (cfg : Cfg) (st : ClientState) (b : String)
    (orgR : OrgIDResp) (cr : CreateResp) (hs : schemeOK cfg = true)
    (ho1 : orgR.transport = none) (ho2v : orgR.bodyValid = true)
    (ho3 : orgR.status = 200) (ho4 : orgR.orgs.length = 1)
    (hct : cr.transport = none) :
    CreateBucket cfg st b (orgR, cr) =
      ((if cr.status = 201 then { st with created := b :: st.created } else st),
       [Ev.orgReq cfg.organization orgR, Ev.createReq b cr],
       (if cr.status = 201 then none
        else some (CErr.api cr.status (statusLineOf cr.status cr.reason)
          (match cr.body with
           | some g => g.errString
           | none => statusLineOf cr.status cr.reason)))) := by
  obtain ⟨s2, h2⟩ := makeCreateURL_ok cfg hs
  have hgo := getOrgID_ok_eval cfg orgR hs ho1 ho2v ho3 ho4
  unfold CreateBucket
  simp only [hgo, h2, hct]
  by_cases hc : cr.status = 201 <;> simp [hc]

lemma ensureBucket_ok_eval (cfg : Cfg) (st : ClientState) (b : String)
    (orgR : OrgIDResp) (cr : CreateResp) (hs : schemeOK cfg = true)
    (hskip : cfg.skipBucketCreation = false) (hb : b ∉ st.created)
    (ho1 : orgR.transport = none) (ho2v : orgR.bodyValid = true)
    (ho3 : orgR.status = 200) (ho4 : orgR.orgs.length = 1)
    (hct : cr.transport = none) :
    ensureBucket cfg st b (orgR, cr) =
      ((if cr.status = 201 then { st with created := b :: st.created } else st),
       [Ev.orgReq cfg.organization orgR, Ev.createReq b cr]) := by
  unfold ensureBucket
  rw [if_pos ⟨hskip, hb⟩]
  rw [CreateBucket_ok_eval cfg st b orgR cr hs ho1 ho2v ho3 ho4 hct]

/-- C6: bucket creation is idempotent per client instance.  When the first
creation attempt for an unrecorded bucket succeeds with 201, the bucket is
recorded and a second attempt issues no request at all (one creation request
across the two attempts); when the creation response is anything but 201 the
bucket stays unrecorded and the next attempt issues a creation request
again; and once a bucket is recorded, no Write from any state recording it
ever issues a creation request for it. -/
theorem claim_C6 (cfg : Cfg) (st : ClientState) (b : String)
    (o2 : OrgIDResp × CreateResp) (orgR : OrgIDResp) (cr : CreateResp)
    (hs : schemeOK cfg = true) (hskip : cfg.skipBucketCreation = false)
    (hb : b ∉ st.created)
    (ho1 : orgR.transport = none) (ho2v : orgR.bodyValid = true)
    (ho3 : orgR.status = 200) (ho4 : orgR.orgs.length = 1) :
    (cr.transport = none → cr.status = 201 →
      b ∈ (ensureBucket cfg st b (orgR, cr)).1.created ∧
      (ensureBucket cfg (ensureBucket cfg st b (orgR, cr)).1 b o2).2 = [] ∧
      countCreateReq b ((ensureBucket cfg st b (orgR, cr)).2 ++
        (ensureBucket cfg (ensureBucket cfg st b (orgR, cr)).1 b o2).2) = 1) ∧
    (cr.transport = none → cr.status ≠ 201 →
      b ∉ (ensureBucket cfg st b (orgR, cr)).1.created ∧
      countCreateReq b
        (ensureBucket cfg (ensureBucket cfg st b (orgR, cr)).1 b (orgR, cr)).2 = 1) ∧
    (∀ st' : ClientState, b ∈ st'.created →
      ∀ (now : ℚ) (store : List Metric) (ensO : ℕ → OrgIDResp × CreateResp)
        (wrO : ℕ → WriteResp) (r' : CreateResp),
        Ev.createReq b r' ∉ (Write cfg st' now store ensO wrO).2.2.1) := by
  refine ⟨?_, ?_, fun st' hb' now store ensO wrO r' =>
    Write_no_createReq_of_created cfg st' now store ensO wrO b hb' r'⟩
  · intro hct hc201
    have h1 := ensureBucket_ok_eval cfg st b orgR cr hs hskip hb ho1 ho2v ho3 ho4 hct
    rw [if_pos hc201] at h1
    have hmem : b ∈ (ensureBucket cfg st b (orgR, cr)).1.created := by
      rw [h1]
      exact List.mem_cons_self b st.created
    have h2 := ensureBucket_skip_of_created cfg (ensureBucket cfg st b (orgR, cr)).1 b o2 hmem
    refine ⟨hmem, by rw [h2], ?_⟩
    rw [h2, h1]
    simp [countCreateReq]
  · intro hct hc201
    have h1 := ensureBucket_ok_eval cfg st b orgR cr hs hskip hb ho1 ho2v ho3 ho4 hct
    rw [if_neg hc201] at h1
    have hnm : b ∉ (ensureBucket cfg st b (orgR, cr)).1.created := by
      rw [h1]
      exact hb
    refine ⟨hnm, ?_⟩
    have h2 := ensureBucket_ok_eval cfg (ensureBucket cfg st b (orgR, cr)).1 b orgR cr hs hskip
      hnm ho1 ho2v ho3 ho4 hct
    rw [h2]
    simp [countCreateReq]

theorem claim_C6_witness :
    "alpha" ∈ (ensureBucket exCfgTag exSt "alpha" (exOrgOK, exCr201)).1.created ∧
    (ensureBucket exCfgTag (ensureBucket exCfgTag exSt "alpha" (exOrgOK, exCr201)).1
      "alpha" (exOrgOK, exCr201)).2 = [] ∧
    countCreateReq "alpha" ((ensureBucket exCfgTag exSt "alpha" (exOrgOK, exCr201)).2 ++
      (ensureBucket exCfgTag (ensureBucket exCfgTag exSt "alpha" (exOrgOK, exCr201)).1
        "alpha" (exOrgOK, exCr201)).2) = 1 ∧
    "alpha" ∉ (ensureBucket exCfgTag exSt "alpha" (exOrgOK, exCr409)).1.created ∧
    countCreateReq "alpha"
      (ensureBucket exCfgTag (ensureBucket exCfgTag exSt "alpha" (exOrgOK, exCr409)).1
        "alpha" (exOrgOK, exCr409)).2 = 1 ∧
    Ev.createReq "alpha" exCr201 ∉
      (Write exCfgTag ⟨0, 0, ["alpha"]⟩ 0 [exMetric] exEnsO exWrOK).2.2.1 := by
  have h201 := claim_C6 exCfgTag exSt "alpha" (exOrgOK, exCr201) exOrgOK exCr201
    (by decide) rfl (by decide) rfl rfl rfl rfl
  have h409 := claim_C6 exCfgTag exSt "alpha" (exOrgOK, exCr409) exOrgOK exCr409
    (by decide) rfl (by decide) rfl rfl rfl rfl
  obtain ⟨h1a, h1b, h1c⟩ := h201.1 rfl rfl
  obtain ⟨h2a, h2b⟩ := h409.2.1 rfl (by decide)
  exact ⟨h1a, h1b, h1c, h2a, h2b,
    h201.2.2 ⟨0, 0, ["alpha"]⟩ (by decide) 0 [exMetric] exEnsO exWrOK exCr201⟩

/-! ## Lemmas for the delivery-loop contract -/

lemma writeBatch_events_eq (cfg : Cfg) (st : ClientState) (now : ℚ) (bucket : String)
    (ms : List Metric) (r : WriteResp) (hs : schemeOK cfg = true) :
    (writeBatch cfg st now bucket ms r).2.1 = [Ev.writeReq bucket ms r] := by
  obtain ⟨s, hok⟩ := makeWriteURL_ok cfg bucket hs
  unfold writeBatch
  rw [hok]
  repeat' split
  all_goals first | rfl | simp_all

lemma writeBatch_err_none_iff (cfg : Cfg) (st : ClientState) (now : ℚ) (bucket : String)
    (ms : List Metric) (r : WriteResp) (hs : schemeOK cfg = true) :
    ((writeBatch cfg st now bucket ms r).2.2 = none) ↔ absorbed r = true := by
  obtain ⟨s, hok⟩ := makeWriteURL_ok cfg bucket hs
  unfold writeBatch absorbed respOutcome
  rw [hok]
  rcases htr : r.transport with _ | m
  · simp only [htr]
    split_ifs <;> simp
  · simp [htr]

lemma writeReqBuckets_append (a b : List Ev) :
    writeReqBuckets (a ++ b) = writeReqBuckets a ++ writeReqBuckets b := by
  simp [writeReqBuckets]

lemma writeReqBuckets_eq_nil (evs : List Ev)
    (h : ∀ (b' : String) (ms' : List Metric) (r' : WriteResp),
      Ev.writeReq b' ms' r' ∉ evs) :
    writeReqBuckets evs = [] := by
  induction evs with
  | nil => rfl
  | cons e rest ih =>
    have hrest : ∀ (b' : String) (ms' : List Metric) (r' : WriteResp),
        Ev.writeReq b' ms' r' ∉ rest := by
      intro b' ms' r' hm
      exact h b' ms' r' (List.mem_cons_of_mem _ hm)
    cases e with
    | orgReq og rr =>
      simp only [writeReqBuckets, List.filterMap_cons] at *
      exact ih hrest
    | createReq bb rr =>
      simp only [writeReqBuckets, List.filterMap_cons] at *
      exact ih hrest
    | writeReq bb mm rr =>
      exact absurd (List.mem_cons_self _ _) (h bb mm rr)

lemma writeReqBuckets_ensure (cfg : Cfg) (st : ClientState) (b : String)
    (o : OrgIDResp × CreateResp) :
    writeReqBuckets (ensureBucket cfg st b o).2 = [] :=
  writeReqBuckets_eq_nil _ (fun b' ms' r' => ensureBucket_no_writeReq cfg st b o b' ms' r')

lemma writeLoop_none_iff (cfg : Cfg) (now : ℚ) (store : List Metric)
    (ensO : ℕ → OrgIDResp × CreateResp) (wrO : ℕ → WriteResp) (hs : schemeOK cfg = true) :
    ∀ (groups : List (String × List Entry)) (st : ClientState) (k : ℕ),
      ((writeLoop cfg now store ensO wrO groups st k).2.2 = none ↔
        ∀ j < groups.length, absorbed (wrO (k + j)) = true) := by
  intro groups
  induction groups with
  | nil =>
    intro st k
    simp [writeLoop]
  | cons g rest ih =>
    intro st k
    obtain ⟨bucket, batch⟩ := g
    rcases hens : ensureBucket cfg st bucket (ensO k) with ⟨st1, evE⟩
    rcases hwb : writeBatch cfg st1 now bucket (batch.map (resolveEntry store)) (wrO k) with
      ⟨st2, evW, res⟩
    have hiff := writeBatch_err_none_iff cfg st1 now bucket
      (batch.map (resolveEntry store)) (wrO k) hs
    rw [hwb] at hiff
    simp only at hiff
    simp only [writeLoop, hens, hwb]
    cases res with
    | some e =>
      have habs : absorbed (wrO k) = false := by
        cases habs : absorbed (wrO k)
        · rfl
        · exact absurd (hiff.mpr habs) (by simp)
      constructor
      · intro h
        simp at h
      · intro hall
        have h0 := hall 0 (by simp)
        rw [Nat.add_zero, habs] at h0
        exact absurd h0 (by simp)
    | none =>
      have habs : absorbed (wrO k) = true := hiff.mp rfl
      rcases hrec : writeLoop cfg now store ensO wrO rest st2 (k + 1) with ⟨st3, evs, rr⟩
      have hih := ih st2 (k + 1)
      rw [hrec] at hih
      simp only [hrec]
      simp only at hih ⊢
      constructor
      · intro hr j hj
        cases j with
        | zero =>
          rw [Nat.add_zero]
          exact habs
        | succ n =>
          have harith : (k + 1) + n = k + (n + 1) := by omega
          rw [← harith]
          exact (hih.mp hr) n (by simpa using hj)
      · intro hall
        apply hih.mpr
        intro j hj
        have harith : (k + 1) + j = k + (j + 1) := by omega
        rw [harith]
        exact hall (j + 1) (by simpa using hj)

lemma writeLoop_first_failure (cfg : Cfg) (now : ℚ) (store : List Metric)
    (ensO : ℕ → OrgIDResp × CreateResp) (wrO : ℕ → WriteResp) (hs : schemeOK cfg = true) :
    ∀ (groups : List (String × List Entry)) (st : ClientState) (k j : ℕ),
      j < groups.length →
      (∀ i < j, absorbed (wrO (k + i)) = true) →
      absorbed (wrO (k + j)) = false →
      (∃ stj, (writeLoop cfg now store ensO wrO groups st k).2.2 =
          (writeBatch cfg stj now (groups.getD j ("", [])).1
            ((groups.getD j ("", [])).2.map (resolveEntry store)) (wrO (k + j))).2.2) ∧
      (writeLoop cfg now store ensO wrO groups st k).2.2 ≠ none ∧
      writeReqBuckets (writeLoop cfg now store ensO wrO groups st k).2.1 =
        (groups.take (j + 1)).map Prod.fst := by
  intro groups
  induction groups with
  | nil =>
    intro st k j hj
    simp at hj
  | cons g rest ih =>
    intro st k j hj hpre hfail
    obtain ⟨bucket, batch⟩ := g
    rcases hens : ensureBucket cfg st bucket (ensO k) with ⟨st1, evE⟩
    rcases hwb : writeBatch cfg st1 now bucket (batch.map (resolveEntry store)) (wrO k) with
      ⟨st2, evW, res⟩
    have hiff := writeBatch_err_none_iff cfg st1 now bucket
      (batch.map (resolveEntry store)) (wrO k) hs
    rw [hwb] at hiff
    simp only at hiff
    have hevW : evW = [Ev.writeReq bucket (batch.map (resolveEntry store)) (wrO k)] := by
      have h := writeBatch_events_eq cfg st1 now bucket
        (batch.map (resolveEntry store)) (wrO k) hs
      rw [hwb] at h
      exact h
    have hevE : writeReqBuckets evE = [] := by
      have h := writeReqBuckets_ensure cfg st bucket (ensO k)
      rw [hens] at h
      exact h
    simp only [writeLoop, hens, hwb]
    cases j with
    | zero =>
      rw [Nat.add_zero] at hfail
      cases res with
      | none =>
        have := hiff.mp rfl
        rw [hfail] at this
        exact absurd this (by simp)
      | some e =>
        refine ⟨⟨st1, ?_⟩, by simp, ?_⟩
        · simp only [List.getD_cons_zero, Nat.add_zero]
          rw [hwb]
        · simp only
          rw [writeReqBuckets_append, hevE, hevW]
          simp [writeReqBuckets]
    | succ n =>
      have habs0 : absorbed (wrO k) = true := by
        have h := hpre 0 (by omega)
        rwa [Nat.add_zero] at h
      cases res with
      | some e => exact absurd (hiff.mpr habs0) (by simp)
      | none =>
        rcases hrec : writeLoop cfg now store ensO wrO rest st2 (k + 1) with ⟨st3, evs, rr⟩
        have hpre' : ∀ i < n, absorbed (wrO ((k + 1) + i)) = true := by
          intro i hi
          have h2 := hpre (i + 1) (by omega)
          have harith : k + (i + 1) = (k + 1) + i := by omega
          rwa [harith] at h2
        have hfail' : absorbed (wrO ((k + 1) + n)) = false := by
          have harith : k + (n + 1) = (k + 1) + n := by omega
          rwa [harith] at hfail
        have hih := ih st2 (k + 1) n (by simpa using hj) hpre' hfail'
        rw [hrec] at hih
        obtain ⟨⟨stj, herr⟩, hne, htr⟩ := hih
        refine ⟨⟨stj, ?_⟩, ?_, ?_⟩
        · simp only [List.getD_cons_succ]
          have harith : k + (n + 1) = (k + 1) + n := by omega
          rw [harith]
          exact herr
        · simpa using hne
        · simp only
          rw [writeReqBuckets_append, writeReqBuckets_append, hevE, hevW]
          simp only [writeReqBuckets] at htr ⊢
          simp [htr]

/-- C1: with bucket routing configured (and the gate passed), Write returns
nil exactly when every sub-batch outcome is absorbed (success or intentional
drop), and when the first non-absorbed outcome occurs at group j, Write
returns that sub-batch's error and the write requests issued are exactly
those of groups 0..j — no later bucket group is attempted. -/
theorem claim_C1 (cfg : Cfg) (st : ClientState) (now : ℚ) (store : List Metric)
    (ensO : ℕ → OrgIDResp × CreateResp) (wrO : ℕ → WriteResp)
    (hs : schemeOK cfg = true) (htag : cfg.bucketTag ≠ "")
    (hgate : st.retryTime ≤ now) :
    ((Write cfg st now store ensO wrO).2.2.2 = none ↔
      ∀ j < (partitionMetrics cfg store).2.length, absorbed (wrO j) = true) ∧
    (∀ j, j < (partitionMetrics cfg store).2.length →
      (∀ i < j, absorbed (wrO i) = true) → absorbed (wrO j) = false →
      (Write cfg st now store ensO wrO).2.2.2 ≠ none ∧
      (∃ stj, (Write cfg st now store ensO wrO).2.2.2 =
          (writeBatch cfg stj now ((partitionMetrics cfg store).2.getD j ("", [])).1
            (((partitionMetrics cfg store).2.getD j ("", [])).2.map
              (resolveEntry (partitionMetrics cfg store).1)) (wrO j)).2.2) ∧
      writeReqBuckets (Write cfg st now store ensO wrO).2.2.1 =
        (((partitionMetrics cfg store).2.take (j + 1)).map Prod.fst)) := by
  have hlt : ¬ now < st.retryTime := not_lt.mpr hgate
  rcases hpl : partitionMetrics cfg store with ⟨store2, groups⟩
  have hW : Write cfg st now store ensO wrO =
      (let (st', evs, res) := writeLoop cfg now store2 ensO wrO groups st 0
       (st', store2, evs, res)) := by
    unfold Write
    rw [if_neg hlt, if_neg htag, hpl]
  rcases hwl : writeLoop cfg now store2 ensO wrO groups st 0 with ⟨st2, evs2, res2⟩
  rw [hwl] at hW
  simp only at hW
  rw [hW]
  simp only
  constructor
  · have h := writeLoop_none_iff cfg now store2 ensO wrO hs groups st 0
    rw [hwl] at h
    simpa using h
  · intro j hj hpre hfail
    have h := writeLoop_first_failure cfg now store2 ensO wrO hs groups st 0 j hj
      (by simpa using hpre) (by simpa using hfail)
    rw [hwl] at h
    obtain ⟨⟨stj, herr⟩, hne, htr⟩ := h
    exact ⟨hne, ⟨stj, by simpa using herr⟩, htr⟩

lemma writeBatch_no_orgReq (cfg : Cfg) (st : ClientState) (now : ℚ) (bucket : String)
    (ms : List Metric) (r : WriteResp) (og : String) (r' : OrgIDResp) :
    Ev.orgReq og r' ∉ (writeBatch cfg st now bucket ms r).2.1 := by
  unfold writeBatch
  repeat' split
  all_goals simp

lemma countCreateReq_eq_zero (b : String) (evs : List Ev)
    (h : ∀ r' : CreateResp, Ev.createReq b r' ∉ evs) : countCreateReq b evs = 0 := by
  unfold countCreateReq
  rw [List.length_eq_zero, List.filter_eq_nil]
  intro e he
  cases e with
  | orgReq og rr => simp
  | writeReq bb mm rr => simp
  | createReq bb rr =>
    simp only [decide_eq_true_eq]
    intro hbb
    exact h rr (hbb ▸ he)

lemma countOrgReq_eq_zero (evs : List Ev)
    (h : ∀ (og : String) (r' : OrgIDResp), Ev.orgReq og r' ∉ evs) : countOrgReq evs = 0 := by
  unfold countOrgReq
  rw [List.length_eq_zero, List.filter_eq_nil]
  intro e he
  cases e with
  | orgReq og rr => exact absurd he (h og rr)
  | writeReq bb mm rr => simp
  | createReq bb rr => simp

lemma getOrgID_events_eq (cfg : Cfg) (r : OrgIDResp) (hs : schemeOK cfg = true) :
    (getOrgID cfg r).1 = [Ev.orgReq cfg.organization r] := by
  obtain ⟨s1, h1⟩ := makeOrgIDURL_ok cfg hs
  unfold getOrgID
  rw [h1]
  repeat' split
  all_goals first | rfl | simp_all

lemma CreateBucket_orgReq_head (cfg : Cfg) (st : ClientState) (b : String)
    (o : OrgIDResp × CreateResp) (hs : schemeOK cfg = true) :
    ∃ tail, (CreateBucket cfg st b o).2.1 = Ev.orgReq cfg.organization o.1 :: tail := by
  rcases hgo : getOrgID cfg o.1 with ⟨evs, orgRes⟩
  have hevs : evs = [Ev.orgReq cfg.organization o.1] := by
    have h := getOrgID_events_eq cfg o.1 hs
    rw [hgo] at h
    exact h
  unfold CreateBucket
  simp only [hgo]
  subst hevs
  repeat' split
  all_goals exact ⟨_, rfl⟩

lemma ensureBucket_orgReq_head_of_guard (cfg : Cfg) (st : ClientState) (b : String)
    (o : OrgIDResp × CreateResp) (hs : schemeOK cfg = true)
    (hskip : cfg.skipBucketCreation = false) (hb : b ∉ st.created) :
    ∃ tail, (ensureBucket cfg st b o).2 = Ev.orgReq cfg.organization o.1 :: tail := by
  unfold ensureBucket
  rw [if_pos ⟨hskip, hb⟩]
  rcases hcb : CreateBucket cfg st b o with ⟨st', evs, err⟩
  have hh := CreateBucket_orgReq_head cfg st b o hs
  rw [hcb] at hh
  simpa using hh

lemma ensureBucket_head_of_created_new (cfg : Cfg) (st : ClientState) (b : String)
    (o : OrgIDResp × CreateResp) (hs : schemeOK cfg = true) (x : String)
    (hx : x ∈ (ensureBucket cfg st b o).1.created) (hnx : x ∉ st.created) :
    x = b ∧ ∃ tail, (ensureBucket cfg st b o).2 = Ev.orgReq cfg.organization o.1 :: tail := by
  rcases ensureBucket_created_new cfg st b o x hx with h | ⟨hxb, _, _, hcm⟩
  · exact absurd h hnx
  · refine ⟨hxb, ?_⟩
    revert hcm
    unfold ensureBucket
    split
    · rcases hcb : CreateBucket cfg st b o with ⟨st', evs, err⟩
      intro _
      have hh := CreateBucket_orgReq_head cfg st b o hs
      rw [hcb] at hh
      simpa using hh
    · intro hcm
      simp at hcm

lemma pair_sublist_of_head_mem (a w : Ev) (tail rest : List Ev) (hw : w ∈ tail ++ rest) :
    List.Sublist [a, w] ((a :: tail) ++ rest) := by
  simp only [List.cons_append]
  exact (List.singleton_sublist.mpr hw).cons₂ a

lemma writeLoop_write_preceded (cfg : Cfg) (now : ℚ) (store : List Metric)
    (ensO : ℕ → OrgIDResp × CreateResp) (wrO : ℕ → WriteResp)
    (hs : schemeOK cfg = true) (hskip : cfg.skipBucketCreation = false) :
    ∀ (groups : List (String × List Entry)) (st : ClientState) (k : ℕ)
      (b : String) (entries : List Metric) (r' : WriteResp),
      Ev.writeReq b entries r' ∈ (writeLoop cfg now store ensO wrO groups st k).2.1 →
      b ∈ st.created ∨ ∃ og : OrgIDResp,
        List.Sublist [Ev.orgReq cfg.organization og, Ev.writeReq b entries r']
          (writeLoop cfg now store ensO wrO groups st k).2.1 := by
  intro groups
  induction groups with
  | nil =>
    intro st k b entries r' hmem
    simp [writeLoop] at hmem
  | cons g rest ih =>
    intro st k b entries r' hmem
    obtain ⟨bucket, batch⟩ := g
    rcases hens : ensureBucket cfg st bucket (ensO k) with ⟨st1, evE⟩
    rcases hwb : writeBatch cfg st1 now bucket (batch.map (resolveEntry store)) (wrO k) with
      ⟨st2, evW, res⟩
    have hevW : evW = [Ev.writeReq bucket (batch.map (resolveEntry store)) (wrO k)] := by
      have h := writeBatch_events_eq cfg st1 now bucket
        (batch.map (resolveEntry store)) (wrO k) hs
      rw [hwb] at h
      exact h
    have hnoE : ∀ (b' : String) (ms' : List Metric) (rr : WriteResp),
        Ev.writeReq b' ms' rr ∉ evE := by
      intro b' ms' rr
      have h := ensureBucket_no_writeReq cfg st bucket (ensO k) b' ms' rr
      rw [hens] at h
      exact h
    have hcr12 : st2.created = st1.created := by
      have h := writeBatch_created cfg st1 now bucket (batch.map (resolveEntry store)) (wrO k)
      rw [hwb] at h
      exact h
    simp only [writeLoop, hens, hwb] at hmem ⊢
    cases res with
    | some e =>
      simp only [List.mem_append] at hmem
      rcases hmem with hm | hm
      · exact absurd hm (hnoE b entries r')
      · rw [hevW] at hm
        simp only [List.mem_singleton, Ev.writeReq.injEq] at hm
        obtain ⟨hb, hent, hr⟩ := hm
        subst hb hent hr
        by_cases hbc : b ∈ st.created
        · exact Or.inl hbc
        · right
          obtain ⟨tail, htail⟩ :=
            ensureBucket_orgReq_head_of_guard cfg st b (ensO k) hs hskip hbc
          rw [hens] at htail
          simp only at htail
          refine ⟨(ensO k).1, ?_⟩
          rw [htail, hevW]
          exact pair_sublist_of_head_mem _ _ tail _ (by simp)
    | none =>
      rcases hrec : writeLoop cfg now store ensO wrO rest st2 (k + 1) with ⟨st3, evs, rr2⟩
      rw [hrec] at hmem
      simp only [List.mem_append] at hmem
      rcases hmem with (hm | hm) | hm
      · exact absurd hm (hnoE b entries r')
      · rw [hevW] at hm
        simp only [List.mem_singleton, Ev.writeReq.injEq] at hm
        obtain ⟨hb, hent, hr⟩ := hm
        subst hb hent hr
        by_cases hbc : b ∈ st.created
        · exact Or.inl hbc
        · right
          obtain ⟨tail, htail⟩ :=
            ensureBucket_orgReq_head_of_guard cfg st b (ensO k) hs hskip hbc
          rw [hens] at htail
          simp only at htail
          refine ⟨(ensO k).1, ?_⟩
          rw [htail, hevW]
          simp only [List.append_assoc]
          exact pair_sublist_of_head_mem _ _ tail _ (by simp)
      · have hihres := ih st2 (k + 1) b entries r' (by rw [hrec]; exact hm)
        rcases hihres with hmem2 | ⟨og, hsub⟩
        · rw [hcr12] at hmem2
          by_cases hbc : b ∈ st.created
          · exact Or.inl hbc
          · right
            obtain ⟨hxb, tail, htail⟩ :=
              ensureBucket_head_of_created_new cfg st bucket (ensO k) hs b
                (by rw [hens]; exact hmem2) hbc
            rw [hens] at htail
            simp only at htail
            refine ⟨(ensO k).1, ?_⟩
            rw [htail]
            simp only [List.append_assoc]
            exact pair_sublist_of_head_mem _ _ tail _ (by simp [hm])
        · right
          refine ⟨og, ?_⟩
          rw [hrec] at hsub
          simp only at hsub
          exact hsub.trans (List.sublist_append_right (evE ++ evW) evs)

/-- C4 (amended): when no routing tag is configured, Write never attempts
bucket creation — the default-bucket batch is sent without any org-lookup or
creation request, even with auto-creation enabled; when a routing tag is
configured and auto-creation is enabled, every batch sent to a bucket not
already recorded as created is preceded in the same call by a creation
attempt (beginning with its org-lookup request), and a creation failure is
only logged: the write is attempted regardless. -/
theorem claim_C4 (cfg : Cfg) (st : ClientState) (now : ℚ) (store : List Metric)
    (ensO : ℕ → OrgIDResp × CreateResp) (wrO : ℕ → WriteResp)
    (hs : schemeOK cfg = true) :
    (cfg.bucketTag = "" →
      countOrgReq (Write cfg st now store ensO wrO).2.2.1 = 0 ∧
      ∀ b, countCreateReq b (Write cfg st now store ensO wrO).2.2.1 = 0) ∧
    (cfg.bucketTag ≠ "" → cfg.skipBucketCreation = false →
      ∀ (b : String) (entries : List Metric) (r' : WriteResp),
        Ev.writeReq b entries r' ∈ (Write cfg st now store ensO wrO).2.2.1 →
        b ∈ st.created ∨ ∃ og : OrgIDResp,
          List.Sublist [Ev.orgReq cfg.organization og, Ev.writeReq b entries r']
            (Write cfg st now store ensO wrO).2.2.1) := by
  constructor
  · intro htag
    unfold Write
    by_cases hgate : now < st.retryTime
    · rw [if_pos hgate]
      exact ⟨rfl, fun b => rfl⟩
    · rw [if_neg hgate, if_pos htag]
      rcases hwb : writeBatch cfg st now cfg.bucket
          (((List.range store.length).map Entry.ref).map (resolveEntry store)) (wrO 0) with
        ⟨st2, evs2, res2⟩
      simp only [hwb]
      constructor
      · apply countOrgReq_eq_zero
        intro og r' hm
        have h := writeBatch_no_orgReq cfg st now cfg.bucket
          (((List.range store.length).map Entry.ref).map (resolveEntry store)) (wrO 0) og r'
        rw [hwb] at h
        exact h hm
      · intro b
        apply countCreateReq_eq_zero
        intro r' hm
        have h := writeBatch_no_createReq cfg st now cfg.bucket
          (((List.range store.length).map Entry.ref).map (resolveEntry store)) (wrO 0) b r'
        rw [hwb] at h
        exact h hm
  · intro htag hskip b entries r' hmem
    revert hmem
    unfold Write
    by_cases hgate : now < st.retryTime
    · rw [if_pos hgate]
      intro hmem
      simp at hmem
    · rw [if_neg hgate, if_neg htag]
      rcases hpl : partitionMetrics cfg store with ⟨store2, groups⟩
      simp only
      intro hmem
      exact writeLoop_write_preceded cfg now store2 ensO wrO hs hskip groups st 0
        b entries r' hmem

/-- C4 counterexample: with no routing tag configured and auto-creation
enabled (SkipBucketCreation false) and the default bucket not yet created,
Write sends the single default-bucket batch without issuing any org-lookup
or bucket-creation request, contradicting the claim that creation is
attempted for the default-bucket batch too. -/
theorem claim_C4_counterexample :
    (Write exCfg exSt 0 [exMetric2] exEnsO exWrOK).2.2.1 =
      [Ev.writeReq "telegraf" [exMetric2] exRespOK] ∧
    countOrgReq (Write exCfg exSt 0 [exMetric2] exEnsO exWrOK).2.2.1 = 0 ∧
    countCreateReq "telegraf" (Write exCfg exSt 0 [exMetric2] exEnsO exWrOK).2.2.1 = 0 ∧
    (Write exCfg exSt 0 [exMetric2] exEnsO exWrOK).2.2.2 = none := by
  refine ⟨?_, ?_, ?_, ?_⟩ <;> decide

theorem claim_C4_witness :
    countOrgReq (Write exCfg exSt 0 [exMetric2] exEnsO exWrOK).2.2.1 = 0 ∧
    countCreateReq "telegraf" (Write exCfg exSt 0 [exMetric2] exEnsO exWrOK).2.2.1 = 0 ∧
    ("alpha" ∈ exSt.created ∨ ∃ og : OrgIDResp,
      List.Sublist [Ev.orgReq "org" og, Ev.writeReq "alpha" [exMetric] exRespOK]
        (Write exCfgTag exSt 0 [exMetric] exEnsO exWrOK).2.2.1) := by
  have H1 := claim_C4 exCfg exSt 0 [exMetric2] exEnsO exWrOK (by decide)
  have H2 := claim_C4 exCfgTag exSt 0 [exMetric] exEnsO exWrOK (by decide)
  obtain ⟨hc1, hc2⟩ := H1.1 rfl
  exact ⟨hc1, hc2 "telegraf",
    H2.2 (by decide) rfl "alpha" [exMetric] exRespOK (by decide)⟩

theorem claim_C1_witness :
    (Write exCfgTag exSt 0 [exMetric, exMetric2] exEnsO exWrO2).2.2.2 ≠ none ∧
    writeReqBuckets (Write exCfgTag exSt 0 [exMetric, exMetric2] exEnsO exWrO2).2.2.1 =
      ["alpha", "telegraf"] ∧
    (Write exCfgTag exSt 0 [exMetric, exMetric2] exEnsO exWrOK).2.2.2 = none := by
  have H := claim_C1 exCfgTag exSt 0 [exMetric, exMetric2] exEnsO exWrO2
    (by decide) (by decide) le_rfl
  have H2 := claim_C1 exCfgTag exSt 0 [exMetric, exMetric2] exEnsO exWrOK
    (by decide) (by decide) le_rfl
  obtain ⟨hne, _hstj, htr⟩ := H.2 1 (by decide) (by decide) (by decide)
  refine ⟨hne, ?_, H2.1.mpr (by decide)⟩
  rw [htr]
  decide

/-! ## Lemmas on path cleaning and URL construction -/

lemma mk_ne_empty (c : Char) (l : List Char) : (⟨c :: l⟩ : String) ≠ "" := by
  intro h
  have : (⟨c :: l⟩ : String).data = ("" : String).data := by rw [h]
  simp at this

lemma splitSlash_append_slash (s t : List Char) (hs : '/' ∉ s) :
    splitSlash (s ++ '/' :: t) = s :: splitSlash t := by
  induction s with
  | nil => simp [splitSlash]
  | cons c cs ih =>
    have hc : c ≠ '/' := fun h => hs (h ▸ List.mem_cons_self c cs)
    have hcs : '/' ∉ cs := fun h => hs (List.mem_cons_of_mem c h)
    simp only [List.cons_append, splitSlash, if_neg hc]
    rw [List.append_eq, ih hcs]

lemma joinSlash_cons (s : List Char) (ss : List (List Char)) (hne : ss ≠ []) :
    joinSlash (s :: ss) = s ++ '/' :: joinSlash ss := by
  cases ss with
  | nil => exact absurd rfl hne
  | cons t ts => rfl

lemma splitSlash_join (segs : List (List Char)) (t : List Char) (hne : segs ≠ [])
    (hnos : ∀ s ∈ segs, '/' ∉ s) :
    splitSlash (joinSlash segs ++ '/' :: t) = segs ++ splitSlash t := by
  induction segs with
  | nil => exact absurd rfl hne
  | cons s ss ih =>
    cases ss with
    | nil =>
      show splitSlash (s ++ '/' :: t) = [s] ++ splitSlash t
      rw [splitSlash_append_slash s t (hnos s (by simp))]
      rfl
    | cons t2 ts =>
      rw [joinSlash_cons s (t2 :: ts) (by simp), List.append_assoc, List.cons_append,
        splitSlash_append_slash s _ (hnos s (by simp)),
        ih (by simp) (fun x hx => hnos x (List.mem_cons_of_mem s hx))]
      rfl

lemma foldl_cleanStep_push (segs : List (List Char))
    (hreal : ∀ s ∈ segs, s ≠ [] ∧ s ≠ ['.'] ∧ s ≠ ['.', '.']) :
    ∀ acc, segs.foldl (cleanStep true) acc = segs.reverse ++ acc := by
  induction segs with
  | nil =>
    intro acc
    rfl
  | cons s ss ih =>
    intro acc
    have hs := hreal s (by simp)
    have hstep : cleanStep true acc s = s :: acc := by
      unfold cleanStep
      rw [if_neg (not_or.mpr ⟨hs.1, hs.2.1⟩), if_neg hs.2.2]
    rw [List.foldl_cons, hstep, ih (fun x hx => hreal x (List.mem_cons_of_mem s hx)) (s :: acc)]
    simp

lemma joinSlash_append (xs ys : List (List Char)) (hxs : xs ≠ []) (hys : ys ≠ []) :
    joinSlash (xs ++ ys) = joinSlash xs ++ '/' :: joinSlash ys := by
  induction xs with
  | nil => exact absurd rfl hxs
  | cons s ss ih =>
    cases ss with
    | nil =>
      cases ys with
      | nil => exact absurd rfl hys
      | cons y yt =>
        show joinSlash (s :: y :: yt) = joinSlash [s] ++ '/' :: joinSlash (y :: yt)
        rw [joinSlash_cons s (y :: yt) (by simp)]
        rfl
    | cons t ts =>
      rw [List.cons_append, joinSlash_cons s ((t :: ts) ++ ys) (by simp),
        joinSlash_cons s (t :: ts) (by simp), ih (by simp), List.append_assoc]
      rfl

lemma pathClean_mk_rooted (l : List Char) :
    pathClean ⟨'/' :: l⟩ =
      ⟨'/' :: joinSlash (((splitSlash l).foldl (cleanStep true) []).reverse)⟩ := by
  unfold pathClean
  rw [if_neg (mk_ne_empty _ _)]
  simp [splitSlash, cleanStep]

lemma pathClean_canonical (segsC : List (List Char)) (hne : segsC ≠ [])
    (hreal : ∀ s ∈ segsC, s ≠ [] ∧ s ≠ ['.'] ∧ s ≠ ['.', '.'] ∧ '/' ∉ s) :
    pathClean ⟨'/' :: (joinSlash segsC ++
        '/' :: '/' :: ['a', 'p', 'i', '/', 'v', '2', '/', 'w', 'r', 'i', 't', 'e'])⟩ =
      ⟨'/' :: (joinSlash segsC ++
        '/' :: ['a', 'p', 'i', '/', 'v', '2', '/', 'w', 'r', 'i', 't', 'e'])⟩ := by
  rw [pathClean_mk_rooted]
  have hsplit : splitSlash (joinSlash segsC ++
      '/' :: '/' :: ['a', 'p', 'i', '/', 'v', '2', '/', 'w', 'r', 'i', 't', 'e']) =
      segsC ++ [] :: [['a', 'p', 'i'], ['v', '2'], ['w', 'r', 'i', 't', 'e']] := by
    rw [splitSlash_join segsC _ hne (fun s hsm => (hreal s hsm).2.2.2)]
    have h2 : splitSlash ('/' :: ['a', 'p', 'i', '/', 'v', '2', '/', 'w', 'r', 'i', 't', 'e']) =
        [] :: [['a', 'p', 'i'], ['v', '2'], ['w', 'r', 'i', 't', 'e']] := by decide
    rw [h2]
  rw [hsplit, List.foldl_append,
    foldl_cleanStep_push segsC (fun s hsm =>
      ⟨(hreal s hsm).1, (hreal s hsm).2.1, (hreal s hsm).2.2.1⟩) []]
  have hstep0 : ∀ acc : List (List Char), cleanStep true acc [] = acc := by
    intro acc
    simp [cleanStep]
  have hpush : ∀ acc : List (List Char),
      [[], ['a', 'p', 'i'], ['v', '2'], ['w', 'r', 'i', 't', 'e']].foldl (cleanStep true) acc =
        ['w', 'r', 'i', 't', 'e'] :: ['v', '2'] :: ['a', 'p', 'i'] :: acc := by
    intro acc
    simp only [List.foldl_cons, List.foldl_nil, hstep0]
    rw [show ∀ a : List (List Char), cleanStep true a ['a', 'p', 'i'] = ['a', 'p', 'i'] :: a
        from fun a => by simp [cleanStep]]
    rw [show ∀ a : List (List Char), cleanStep true a ['v', '2'] = ['v', '2'] :: a
        from fun a => by simp [cleanStep]]
    rw [show ∀ a : List (List Char), cleanStep true a ['w', 'r', 'i', 't', 'e'] =
        ['w', 'r', 'i', 't', 'e'] :: a from fun a => by simp [cleanStep]]
  rw [hpush]
  have hrev : (['w', 'r', 'i', 't', 'e'] :: ['v', '2'] :: ['a', 'p', 'i'] ::
      (segsC.reverse ++ [])).reverse =
      segsC ++ [['a', 'p', 'i'], ['v', '2'], ['w', 'r', 'i', 't', 'e']] := by
    simp
  rw [hrev, joinSlash_append segsC _ hne (by simp)]
  rfl

lemma pathJoin_clean_abs (segsC : List (List Char)) (hne : segsC ≠ [])
    (hreal : ∀ s ∈ segsC, s ≠ [] ∧ s ≠ ['.'] ∧ s ≠ ['.', '.'] ∧ '/' ∉ s) :
    pathJoin ⟨'/' :: joinSlash segsC⟩ "/api/v2/write" =
      ⟨'/' :: joinSlash segsC⟩ ++ "/api/v2/write" := by
  unfold pathJoin
  rw [if_neg (fun h => mk_ne_empty '/' (joinSlash segsC) h.1), if_neg (mk_ne_empty _ _),
    if_neg (show ("/api/v2/write" : String) ≠ "" by decide)]
  have hdata : ((⟨'/' :: joinSlash segsC⟩ : String) ++ "/" ++ "/api/v2/write") =
      ⟨'/' :: (joinSlash segsC ++
        '/' :: '/' :: ['a', 'p', 'i', '/', 'v', '2', '/', 'w', 'r', 'i', 't', 'e'])⟩ := by
    apply String.ext
    simp [String.data_append]
  rw [hdata, pathClean_canonical segsC hne hreal]
  apply String.ext
  simp [String.data_append]

lemma joinSlash_glue (x y : List Char) (X : List (List Char)) :
    joinSlash ((x ++ '/' :: y) :: X) = x ++ '/' :: joinSlash (y :: X) := by
  cases X with
  | nil => rfl
  | cons a as =>
    rw [joinSlash_cons _ (a :: as) (by simp), joinSlash_cons y (a :: as) (by simp)]
    simp

lemma intercalate_go_data (ss : List String) : ∀ acc : String,
    (String.intercalate.go acc "/" ss).data = joinSlash (acc.data :: ss.map String.data) := by
  induction ss with
  | nil =>
    intro acc
    rfl
  | cons a as ih =>
    intro acc
    show (String.intercalate.go (acc ++ "/" ++ a) "/" as).data = _
    rw [ih (acc ++ "/" ++ a)]
    have hd : (acc ++ "/" ++ a).data = acc.data ++ '/' :: a.data := by
      simp [String.data_append]
    rw [hd, List.map_cons, joinSlash_glue,
      joinSlash_cons acc.data (a.data :: List.map String.data as) (by simp)]

lemma intercalate_data (segs : List String) :
    (String.intercalate "/" segs).data = joinSlash (segs.map String.data) := by
  cases segs with
  | nil => rfl
  | cons s ss => exact intercalate_go_data ss s

lemma valuesEncode_pair (b o : String) :
    valuesEncode [("bucket", [b]), ("org", [o])] =
      "bucket=" ++ queryEscape b ++ "&org=" ++ queryEscape o := by
  have hpair : ∀ x y : String, String.intercalate "&" [x, y] = x ++ "&" ++ y := fun x y => rfl
  unfold valuesEncode
  simp only [sortByKey, insertByKey, show (("bucket" : String) ≤ "org") = True by simp; decide,
    if_true, List.flatMap_cons, List.map_cons, List.map_nil, List.flatMap_nil, List.append_nil,
    List.cons_append, List.nil_append]
  rw [hpair]
  have h1 : queryEscape "bucket" = "bucket" := rfl
  have h2 : queryEscape "org" = "org" := rfl
  rw [h1, h2]
  apply String.ext
  simp [String.data_append]

/-- C8 (amended): for http and https bases whose path is already in cleaned
absolute form (slash-joined non-empty segments free of dot, dot-dot and
slash), the write URL preserves the path prefix and appends /api/v2/write,
with query parameters bucket and org both present and percent-encoded (the
joined path is lexically cleaned before use, so un-clean prefixes are
normalized rather than preserved verbatim); concretely, base
https://host/prefix with bucket b and org o yields
https://host/prefix/api/v2/write?bucket=b&org=o; and for every base with the
unix scheme the write URL is http://127.0.0.1/api/v2/write with the same
query, regardless of the base's original path and host. -/
theorem claim_C8 :
    (∀ (sch host rq b o : String) (segs : List String),
      (sch = "http" ∨ sch = "https") → segs ≠ [] →
      (∀ s ∈ segs, s ≠ "" ∧ s ≠ "." ∧ s ≠ ".." ∧ '/' ∉ s.data) →
      makeWriteURLParts ⟨sch, host, "/" ++ String.intercalate "/" segs, rq⟩ o b =
        Except.ok ⟨sch, host, ("/" ++ String.intercalate "/" segs) ++ "/api/v2/write",
          "bucket=" ++ queryEscape b ++ "&org=" ++ queryEscape o⟩) ∧
    makeWriteURL ⟨"https", "host", "/prefix", ""⟩ "o" "b" =
      Except.ok "https://host/prefix/api/v2/write?bucket=b&org=o" ∧
    (∀ (u : URL) (b o : String), u.scheme = "unix" →
      makeWriteURL u o b =
        Except.ok ("http://127.0.0.1/api/v2/write?bucket=" ++ queryEscape b ++
          "&org=" ++ queryEscape o)) := by
  refine ⟨?_, by with_unfolding_all rfl, ?_⟩
  · intro sch host rq b o segs hsch hne hreal
    have hmapne : segs.map String.data ≠ [] := by
      intro h
      exact hne (List.map_eq_nil.mp h)
    have hmapreal : ∀ s ∈ segs.map String.data,
        s ≠ [] ∧ s ≠ ['.'] ∧ s ≠ ['.', '.'] ∧ '/' ∉ s := by
      intro l hl
      obtain ⟨s, hs, rfl⟩ := List.mem_map.mp hl
      obtain ⟨h1, h2, h3, h4⟩ := hreal s hs
      exact ⟨fun h => h1 (String.ext (by simp [h])),
        fun h => h2 (String.ext (by simp [h])),
        fun h => h3 (String.ext (by simp [h])), h4⟩
    have hp : "/" ++ String.intercalate "/" segs = ⟨'/' :: joinSlash (segs.map String.data)⟩ := by
      apply String.ext
      simp [String.data_append, intercalate_data]
    have hjoin : pathJoin ("/" ++ String.intercalate "/" segs) "/api/v2/write" =
        ("/" ++ String.intercalate "/" segs) ++ "/api/v2/write" := by
      rw [hp, pathJoin_clean_abs (segs.map String.data) hmapne hmapreal]
    rcases hsch with h | h <;> subst h <;>
      · show Except.ok _ = Except.ok _
        rw [Except.ok.injEq, URL.mk.injEq]
        exact ⟨rfl, rfl, hjoin, valuesEncode_pair b o⟩
  · intro u b o hsch
    obtain ⟨sc, host, path, rq⟩ := u
    simp only at hsch
    subst hsch
    show Except.ok (urlString ⟨"http", "127.0.0.1", "/api/v2/write",
      valuesEncode [("bucket", [b]), ("org", [o])]⟩) = _
    rw [Except.ok.injEq]
    unfold urlString
    rw [valuesEncode_pair b o]
    have hqne : ("bucket=" ++ queryEscape b ++ "&org=" ++ queryEscape o) ≠ "" := by
      intro h
      have hd := congrArg String.data h
      simp [String.data_append] at hd
    rw [if_neg hqne]
    have hpe : pathEscape "/api/v2/write" = "/api/v2/write" := rfl
    simp only
    rw [hpe]
    apply String.ext
    simp [String.data_append]

/-- C8 counterexample: a base whose path contains a dot-dot segment is not
preserved verbatim: base https://host/a/../b yields the lexically cleaned
https://host/b/api/v2/write, not https://host/a/../b/api/v2/write as the
claim's blanket "preserves any existing path prefix" requires. -/
theorem claim_C8_counterexample :
    makeWriteURL ⟨"https", "host", "/a/../b", ""⟩ "o" "b" =
      Except.ok "https://host/b/api/v2/write?bucket=b&org=o" ∧
    makeWriteURL ⟨"https", "host", "/a/../b", ""⟩ "o" "b" ≠
      Except.ok "https://host/a/../b/api/v2/write?bucket=b&org=o" := by
  have h1 : makeWriteURL ⟨"https", "host", "/a/../b", ""⟩ "o" "b" =
      Except.ok "https://host/b/api/v2/write?bucket=b&org=o" := by
    with_unfolding_all rfl
  refine ⟨h1, ?_⟩
  rw [h1]
  intro h
  exact absurd (Except.ok.inj h) (by decide)

theorem claim_C8_witness :
    makeWriteURLParts ⟨"https", "host", "/" ++ String.intercalate "/" ["prefix"], ""⟩ "o" "b" =
      Except.ok ⟨"https", "host", ("/" ++ String.intercalate "/" ["prefix"]) ++ "/api/v2/write",
        "bucket=" ++ queryEscape "b" ++ "&org=" ++ queryEscape "o"⟩ ∧
    makeWriteURL ⟨"unix", "", "/tmp/telegraf.sock", ""⟩ "o" "b" =
      Except.ok ("http://127.0.0.1/api/v2/write?bucket=" ++ queryEscape "b" ++
        "&org=" ++ queryEscape "o") :=
  ⟨claim_C8.1 "https" "host" "" "b" "o" ["prefix"] (Or.inr rfl) (by simp)
      (by intro s hs; fin_cases hs; exact ⟨by decide, by decide, by decide, by decide⟩),
   claim_C8.2.2 ⟨"unix", "", "/tmp/telegraf.sock", ""⟩ "b" "o" rfl⟩

end InfluxV2
